import Mathlib

/- Verification of the arch-token-metadata program.

This file is a shallow embedding, in Lean 4, of the on-chain program under
src/programs/arch-token-metadata (state.rs, error.rs, instruction.rs,
processor.rs, lib.rs), together with proofs about it.

Modelling conventions:
- Machine bytes are Nat values; byte buffers and Rust strings are List Nat
  (Rust String::len is its byte length, which is what every cap in the
  program is compared against).
- A Pubkey is its 32-byte content, modelled as a List Nat.
- Rust Option and fallible operations map to Lean Option; a Rust panic
  (the unwrap in pack, or an out-of-bounds slice copy in pack_into_slice)
  is modelled as the PResult.fail ProgramError.Panic outcome.
- Borsh text fields are modelled as raw byte lists: the UTF-8 well-formedness
  check performed by borsh when decoding a String is not modelled, since
  every buffer produced by the encoder side is trivially in range.
-/

set_option maxRecDepth 10000

/-- A public key, modelled as its 32-byte content (Rust Pubkey wraps [u8; 32]). -/
abbrev Pubkey := List Nat

/-- Maximum length for name (state.rs). -/
def NAME_MAX_LEN : Nat := 256

/-- Maximum length for symbol (state.rs). -/
def SYMBOL_MAX_LEN : Nat := 16

/-- Maximum length for image (state.rs). -/
def IMAGE_MAX_LEN : Nat := 512

/-- Maximum length for description (state.rs). -/
def DESCRIPTION_MAX_LEN : Nat := 512

/-- Maximum length for attribute key (state.rs). -/
def MAX_KEY_LENGTH : Nat := 64

/-- Maximum length for attribute value (state.rs). -/
def MAX_VALUE_LENGTH : Nat := 240

/-- Maximum number of attributes (state.rs). -/
def MAX_ATTRIBUTES : Nat := 32

/-- Maximum serialized length of the TokenMetadata account (state.rs). -/
def TOKEN_METADATA_MAX_LEN : Nat :=
  1 + 32 + (4 + NAME_MAX_LEN) + (4 + SYMBOL_MAX_LEN) + (4 + IMAGE_MAX_LEN) +
    (4 + DESCRIPTION_MAX_LEN) + (1 + 32)

/-- Maximum serialized length of the TokenMetadataAttributes account (state.rs). -/
def TOKEN_METADATA_ATTRIBUTES_MAX_LEN : Nat :=
  1 + 32 + 4 + (MAX_ATTRIBUTES * ((4 + MAX_KEY_LENGTH) + (4 + MAX_VALUE_LENGTH)))

/-- Little-endian 4-byte encoding of a u32 value (borsh length prefixes). -/
def u32LE (n : Nat) : List Nat :=
  [n % 256, n / 256 % 256, n / 65536 % 256, n / 16777216 % 256]

/-- Read a little-endian u32 from the front of a byte buffer. -/
def readU32 : List Nat → Option (Nat × List Nat)
  | b0 :: b1 :: b2 :: b3 :: rest =>
      some (b0 + 256 * b1 + 65536 * b2 + 16777216 * b3, rest)
  | _ => none

/-- Borsh encoding of a bool: one byte, 0 or 1. -/
def encodeBool (b : Bool) : List Nat := [if b then 1 else 0]

/-- Borsh decoding of a bool: the byte must be exactly 0 or 1. -/
def readBool : List Nat → Option (Bool × List Nat)
  | 0 :: rest => some (false, rest)
  | 1 :: rest => some (true, rest)
  | _ => none

/-- Borsh encoding of a Pubkey: its 32 raw bytes (fails if the model value is
not 32 bytes, which cannot happen for a real Rust Pubkey). -/
def encodePubkey (p : Pubkey) : Option (List Nat) :=
  if p.length = 32 then some p else none

/-- Borsh decoding of a Pubkey: the next 32 bytes. -/
def readPubkey (bs : List Nat) : Option (Pubkey × List Nat) :=
  if 32 ≤ bs.length then some (bs.take 32, bs.drop 32) else none

/-- Borsh encoding of a String (as bytes): u32 LE length prefix then content;
borsh fails when the length does not fit in a u32. -/
def encodeBytes (s : List Nat) : Option (List Nat) :=
  if s.length < 4294967296 then some (u32LE s.length ++ s) else none

/-- Borsh decoding of a String (as bytes): read the declared number of bytes. -/
def readBytes (bs : List Nat) : Option (List Nat × List Nat) :=
  match readU32 bs with
  | some (len, rest) =>
      if len ≤ rest.length then some (rest.take len, rest.drop len) else none
  | none => none

/-- Borsh encoding of an Option Pubkey: tag byte 0 or 1 then the payload. -/
def encodeOptionPubkey : Option Pubkey → Option (List Nat)
  | none => some [0]
  | some p =>
      match encodePubkey p with
      | some b => some (1 :: b)
      | none => none

/-- Borsh decoding of an Option Pubkey. -/
def readOptionPubkey : List Nat → Option (Option Pubkey × List Nat)
  | 0 :: rest => some (none, rest)
  | 1 :: rest =>
      match readPubkey rest with
      | some (p, r) => some (some p, r)
      | none => none
  | _ => none

/-- Borsh encoding of an Option String. -/
def encodeOptionBytes : Option (List Nat) → Option (List Nat)
  | none => some [0]
  | some s =>
      match encodeBytes s with
      | some b => some (1 :: b)
      | none => none

/-- Borsh decoding of an Option String. -/
def readOptionBytes : List Nat → Option (Option (List Nat) × List Nat)
  | 0 :: rest => some (none, rest)
  | 1 :: rest =>
      match readBytes rest with
      | some (s, r) => some (some s, r)
      | none => none
  | _ => none

/-- Borsh encoding of a (String, String) tuple. -/
def encodePair (p : List Nat × List Nat) : Option (List Nat) :=
  match encodeBytes p.1, encodeBytes p.2 with
  | some k, some v => some (k ++ v)
  | _, _ => none

/-- Borsh encoding of the elements of a Vec of (String, String) pairs. -/
def encodePairsBody : List (List Nat × List Nat) → Option (List Nat)
  | [] => some []
  | p :: rest =>
      match encodePair p, encodePairsBody rest with
      | some b, some r => some (b ++ r)
      | _, _ => none

/-- Borsh encoding of a Vec of (String, String) pairs: u32 LE count then body. -/
def encodeVecPairs (l : List (List Nat × List Nat)) : Option (List Nat) :=
  if l.length < 4294967296 then
    match encodePairsBody l with
    | some body => some (u32LE l.length ++ body)
    | none => none
  else none

/-- Borsh decoding of a (String, String) tuple. -/
def readPair (bs : List Nat) : Option ((List Nat × List Nat) × List Nat) :=
  match readBytes bs with
  | some (k, bs1) =>
      match readBytes bs1 with
      | some (v, bs2) => some ((k, v), bs2)
      | none => none
  | none => none

/-- Borsh decoding of a fixed number of (String, String) tuples. -/
def readPairs : Nat → List Nat → Option (List (List Nat × List Nat) × List Nat)
  | 0, bs => some ([], bs)
  | n + 1, bs =>
      match readPair bs with
      | some (p, bs1) =>
          match readPairs n bs1 with
          | some (rest, bs2) => some (p :: rest, bs2)
          | none => none
      | none => none

/-- Borsh decoding of a Vec of (String, String) pairs. -/
def readVecPairs (bs : List Nat) : Option (List (List Nat × List Nat) × List Nat) :=
  match readU32 bs with
  | some (n, bs1) => readPairs n bs1
  | none => none

/-- Core metadata record (state.rs TokenMetadata). -/
structure TokenMetadata where
  is_initialized : Bool
  mint : Pubkey
  name : List Nat
  symbol : List Nat
  image : List Nat
  description : List Nat
  update_authority : Option Pubkey
deriving DecidableEq, Repr

/-- Attributes record (state.rs TokenMetadataAttributes). -/
structure TokenMetadataAttributes where
  is_initialized : Bool
  mint : Pubkey
  data : List (List Nat × List Nat)
deriving DecidableEq, Repr

/-- Borsh serialization of a TokenMetadata value, in field declaration order. -/
def serializeTokenMetadata (md : TokenMetadata) : Option (List Nat) :=
  match encodePubkey md.mint, encodeBytes md.name, encodeBytes md.symbol,
      encodeBytes md.image, encodeBytes md.description,
      encodeOptionPubkey md.update_authority with
  | some mb, some nb, some sb, some ib, some db, some ab =>
      some (encodeBool md.is_initialized ++ mb ++ nb ++ sb ++ ib ++ db ++ ab)
  | _, _, _, _, _, _ => none

/-- Borsh streaming deserialization of a TokenMetadata value. -/
def deserializeTokenMetadata (bs : List Nat) : Option (TokenMetadata × List Nat) :=
  match readBool bs with
  | none => none
  | some (ini, bs1) =>
    match readPubkey bs1 with
    | none => none
    | some (mint, bs2) =>
      match readBytes bs2 with
      | none => none
      | some (name, bs3) =>
        match readBytes bs3 with
        | none => none
        | some (symbol, bs4) =>
          match readBytes bs4 with
          | none => none
          | some (image, bs5) =>
            match readBytes bs5 with
            | none => none
            | some (description, bs6) =>
              match readOptionPubkey bs6 with
              | none => none
              | some (auth, bs7) =>
                  some ({ is_initialized := ini, mint := mint, name := name,
                          symbol := symbol, image := image,
                          description := description,
                          update_authority := auth }, bs7)

/-- Streaming unpack of a TokenMetadata record: reads only the bytes the
encoding declares and ignores anything after them (state.rs
unpack_from_slice). -/
def TokenMetadata.unpack_from_slice (src : List Nat) : Option TokenMetadata :=
  (deserializeTokenMetadata src).map Prod.fst

/-- Pack of a TokenMetadata record into a buffer of the given size: serialized
bytes at the front, the remainder zero-filled (state.rs pack_into_slice).
Returns none when the serialized form does not fit, which in Rust is a panic. -/
def TokenMetadata.pack_into_slice (md : TokenMetadata) (dstLen : Nat) : Option (List Nat) :=
  match serializeTokenMetadata md with
  | some d =>
      if d.length ≤ dstLen then some (d ++ List.replicate (dstLen - d.length) 0) else none
  | none => none

/-- Borsh serialization of a TokenMetadataAttributes value. -/
def serializeAttributes (a : TokenMetadataAttributes) : Option (List Nat) :=
  match encodePubkey a.mint, encodeVecPairs a.data with
  | some mb, some db => some (encodeBool a.is_initialized ++ mb ++ db)
  | _, _ => none

/-- Borsh streaming deserialization of a TokenMetadataAttributes value. -/
def deserializeAttributes (bs : List Nat) : Option (TokenMetadataAttributes × List Nat) :=
  match readBool bs with
  | none => none
  | some (ini, bs1) =>
    match readPubkey bs1 with
    | none => none
    | some (mint, bs2) =>
      match readVecPairs bs2 with
      | none => none
      | some (dta, bs3) =>
          some ({ is_initialized := ini, mint := mint, data := dta }, bs3)

/-- Streaming unpack of a TokenMetadataAttributes record. -/
def TokenMetadataAttributes.unpack_from_slice (src : List Nat) : Option TokenMetadataAttributes :=
  (deserializeAttributes src).map Prod.fst

/-- Pack of a TokenMetadataAttributes record into a buffer of the given size. -/
def TokenMetadataAttributes.pack_into_slice (a : TokenMetadataAttributes) (dstLen : Nat) :
    Option (List Nat) :=
  match serializeAttributes a with
  | some d =>
      if d.length ≤ dstLen then some (d ++ List.replicate (dstLen - d.length) 0) else none
  | none => none

/-- Program errors surfaced by the processor (the arch_program ProgramError
variants the program uses, plus the Custom carrier for MetadataError codes).
Panic models a Rust panic inside the handler; External models a failed CPI. -/
inductive ProgramError where
  | IncorrectProgramId
  | InvalidAccountData
  | UninitializedAccount
  | MissingRequiredSignature
  | InvalidSeeds
  | NotEnoughAccountKeys
  | InvalidInstructionData
  | Custom (code : Nat)
  | External
  | Panic
deriving DecidableEq, Repr

/-- Typed errors of the token metadata program (error.rs MetadataError). -/
inductive MetadataError where
  | InvalidMint
  | MetadataAlreadyExists
  | MetadataNotFound
  | InvalidAuthority
  | InvalidInstructionData
  | StringTooLong
  | TooManyAttributes
deriving DecidableEq, Repr

/-- Numeric code of a MetadataError (its discriminant, error.rs). -/
def MetadataError.code : MetadataError → Nat
  | .InvalidMint => 0
  | .MetadataAlreadyExists => 1
  | .MetadataNotFound => 2
  | .InvalidAuthority => 3
  | .InvalidInstructionData => 4
  | .StringTooLong => 5
  | .TooManyAttributes => 6

/-- Conversion of a MetadataError into a ProgramError (error.rs From impl). -/
def MetadataError.toProgramError (e : MetadataError) : ProgramError :=
  .Custom e.code

/-- Result of a fallible program step. -/
inductive PResult (α : Type) where
  | ok (a : α)
  | fail (e : ProgramError)
deriving DecidableEq, Repr

/-- Instructions supported by the token metadata program (instruction.rs). -/
inductive MetadataInstruction where
  | CreateMetadata (name symbol image description : List Nat) (immutable : Bool)
  | UpdateMetadata (name symbol image description : Option (List Nat))
  | CreateAttributes (data : List (List Nat × List Nat))
  | ReplaceAttributes (data : List (List Nat × List Nat))
  | TransferAuthority (new_authority : Pubkey)
  | MakeImmutable
deriving DecidableEq, Repr

/-- Borsh serialization of a MetadataInstruction: one discriminant byte in
declaration order, then the payload fields in order. -/
def MetadataInstruction.serialize : MetadataInstruction → Option (List Nat)
  | .CreateMetadata n s i d imm =>
      match encodeBytes n, encodeBytes s, encodeBytes i, encodeBytes d with
      | some bn, some bs, some bi, some bd =>
          some ([0] ++ bn ++ bs ++ bi ++ bd ++ encodeBool imm)
      | _, _, _, _ => none
  | .UpdateMetadata n s i d =>
      match encodeOptionBytes n, encodeOptionBytes s, encodeOptionBytes i,
          encodeOptionBytes d with
      | some bn, some bs, some bi, some bd => some ([1] ++ bn ++ bs ++ bi ++ bd)
      | _, _, _, _ => none
  | .CreateAttributes dta =>
      match encodeVecPairs dta with
      | some b => some ([2] ++ b)
      | none => none
  | .ReplaceAttributes dta =>
      match encodeVecPairs dta with
      | some b => some ([3] ++ b)
      | none => none
  | .TransferAuthority na =>
      match encodePubkey na with
      | some b => some ([4] ++ b)
      | none => none
  | .MakeImmutable => some [5]

/-- Borsh streaming deserialization of a MetadataInstruction. -/
def MetadataInstruction.deserialize (bs : List Nat) :
    Option (MetadataInstruction × List Nat) :=
  match bs with
  | 0 :: rest =>
      (match readBytes rest with
       | none => none
       | some (n, r1) =>
         match readBytes r1 with
         | none => none
         | some (s, r2) =>
           match readBytes r2 with
           | none => none
           | some (i, r3) =>
             match readBytes r3 with
             | none => none
             | some (d, r4) =>
               match readBool r4 with
               | none => none
               | some (imm, r5) => some (.CreateMetadata n s i d imm, r5))
  | 1 :: rest =>
      (match readOptionBytes rest with
       | none => none
       | some (n, r1) =>
         match readOptionBytes r1 with
         | none => none
         | some (s, r2) =>
           match readOptionBytes r2 with
           | none => none
           | some (i, r3) =>
             match readOptionBytes r3 with
             | none => none
             | some (d, r4) => some (.UpdateMetadata n s i d, r4))
  | 2 :: rest =>
      (match readVecPairs rest with
       | none => none
       | some (dta, r) => some (.CreateAttributes dta, r))
  | 3 :: rest =>
      (match readVecPairs rest with
       | none => none
       | some (dta, r) => some (.ReplaceAttributes dta, r))
  | 4 :: rest =>
      (match readPubkey rest with
       | none => none
       | some (p, r) => some (.TransferAuthority p, r))
  | 5 :: rest => some (.MakeImmutable, rest)
  | _ => none

/-- Pack of an instruction into bytes (instruction.rs pack; none is the
panic on a borsh serialization failure). -/
def MetadataInstruction.pack (i : MetadataInstruction) : Option (List Nat) :=
  i.serialize

/-- Unpack of instruction bytes (instruction.rs unpack, borsh from_slice:
the whole input must be consumed). -/
def MetadataInstruction.unpack (input : List Nat) : PResult MetadataInstruction :=
  match MetadataInstruction.deserialize input with
  | some (i, []) => .ok i
  | _ => .fail .InvalidInstructionData

/-- An account as the processor sees it: address, owning program, whether it
signed the transaction, and its data buffer (arch_program AccountInfo). -/
structure AccountInfo where
  key : Pubkey
  owner : Pubkey
  is_signer : Bool
  data : List Nat
deriving DecidableEq, Repr

/-- State of a token mint as the processor reads it through the external
token program (apl_token Mint; only the fields the processor consumes). -/
structure Mint where
  mint_authority : Option Pubkey
  freeze_authority : Option Pubkey
  is_initialized : Bool
deriving DecidableEq, Repr

/-- PDA seed bytes for the metadata account (lib.rs METADATA_SEED). -/
def METADATA_SEED : List Nat := [109, 101, 116, 97, 100, 97, 116, 97]

/-- PDA seed bytes for the attributes account (lib.rs ATTRIBUTES_SEED). -/
def ATTRIBUTES_SEED : List Nat := [97, 116, 116, 114, 105, 98, 117, 116, 101, 115]

/-- The token program id (apl_token id), an external constant the processor
only ever compares against; its concrete value is irrelevant, any fixed
32-byte key distinct from the other model constants works. -/
def apl_token_id : Pubkey := List.replicate 32 2

/-- The system program id, an external constant compared against the
supplied system-program account key. -/
def system_program_id : Pubkey := List.replicate 32 0

/-- Pubkey equality as the processor implements it (processor.rs cmp_pubkeys,
a 32-byte memcmp; Rust keys are exactly 32 bytes). -/
def cmp_pubkeys (a b : Pubkey) : Bool := a == b

/-- The type of the deterministic program-derived-address function
(arch_program find_program_address): seeds and program id to address and
bump byte. The processor treats it as an opaque deterministic function, so
the embedding passes it in as a parameter. -/
abbrev PdaFn := List (List Nat) → Pubkey → Pubkey × Nat

/-- Metadata PDA derivation helper (lib.rs find_metadata_pda_with_program). -/
def find_metadata_pda_with_program (fpa : PdaFn) (program_id mint : Pubkey) :
    Pubkey × Nat :=
  fpa [METADATA_SEED, mint] program_id

/-- Attributes PDA derivation helper (lib.rs find_attributes_pda_with_program). -/
def find_attributes_pda_with_program (fpa : PdaFn) (program_id mint : Pubkey) :
    Pubkey × Nat :=
  fpa [ATTRIBUTES_SEED, mint] program_id

/-- Modelled from the spec: the external account store create operation
(spec section 6, system_instruction::create_account reached through
invoke_signed; the crate implementing it is not part of this repository).
Allocating a slot that is already in use fails; on success the target
account becomes owned by the requested owner with a zero-filled buffer of
the requested size. -/
def cpi_create_account (target : AccountInfo) (space : Nat) (owner : Pubkey) :
    Option AccountInfo :=
  if target.data.length = 0 then
    some { target with owner := owner, data := List.replicate space 0 }
  else none

/-- First byte of a buffer is nonzero (the already-initialized sentinel the
create handlers test before writing). -/
def head_nonzero : List Nat → Bool
  | [] => false
  | b :: _ => b != 0

/-- Outcome of one instruction: the result plus the final account list
(errors carry whatever account state existed when they were raised, which
lets the development state exactly which failures leave accounts unchanged). -/
abbrev HandlerOut := PResult Unit × List AccountInfo

/-- Resolution of the creation authority against the mint (processor.rs,
the match on mint.mint_authority in process_create_metadata): the mint
authority when present must match the supplied key, else the freeze
authority must match, else nobody may create; none means InvalidAuthority. -/
def resolve_creation_authority (mint : Mint) (key : Pubkey) : Option Pubkey :=
  match mint.mint_authority with
  | some mint_auth => if cmp_pubkeys mint_auth key then some mint_auth else none
  | none =>
    match mint.freeze_authority with
    | some freeze_auth => if cmp_pubkeys freeze_auth key then some freeze_auth else none
    | none => none

/-- Per-pair attribute validation loop shared by process_create_attributes and
process_replace_attributes (processor.rs): the first offending pair decides
the error, empty key or value before oversized key or value. -/
def validate_attribute_pairs : List (List Nat × List Nat) → Option ProgramError
  | [] => none
  | (k, v) :: rest =>
      if k.length = 0 ∨ v.length = 0 then
        some (MetadataError.InvalidInstructionData.toProgramError)
      else if MAX_KEY_LENGTH < k.length ∨ MAX_VALUE_LENGTH < v.length then
        some (MetadataError.StringTooLong.toProgramError)
      else validate_attribute_pairs rest

/-- On-demand creation step of process_create_metadata (processor.rs): when
the metadata account is not yet owned by this program, require the correct
system program id and a payer signature, then create the account at full
size via CPI; otherwise keep the account as it is. -/
def ensure_metadata_account (payer_info system_program_info target : AccountInfo)
    (program_id : Pubkey) : PResult AccountInfo :=
  if target.owner ≠ program_id then
    if system_program_info.key ≠ system_program_id then .fail .IncorrectProgramId
    else if payer_info.is_signer = false then .fail .MissingRequiredSignature
    else
      match cpi_create_account target TOKEN_METADATA_MAX_LEN program_id with
      | some a => .ok a
      | none => .fail .External
  else .ok target

/-- On-demand creation step of process_create_attributes (processor.rs): as
for metadata, but an account already owned by this program must have exactly
the full attributes size. -/
def ensure_attributes_account (payer_info system_program_info target : AccountInfo)
    (program_id : Pubkey) : PResult AccountInfo :=
  if target.owner ≠ program_id then
    if system_program_info.key ≠ system_program_id then .fail .IncorrectProgramId
    else if payer_info.is_signer = false then .fail .MissingRequiredSignature
    else
      match cpi_create_account target TOKEN_METADATA_ATTRIBUTES_MAX_LEN program_id with
      | some a => .ok a
      | none => .fail .External
  else if target.data.length ≠ TOKEN_METADATA_ATTRIBUTES_MAX_LEN then
    .fail .InvalidAccountData
  else .ok target


/-- Handler for CreateMetadata (processor.rs process_create_metadata).
Accounts: payer, system program, mint, metadata, mint authority. -/
def process_create_metadata (fpa : PdaFn) (unpackMint : List Nat → Option Mint)
    (program_id : Pubkey) (accounts : List AccountInfo)
    (name symbol image description : List Nat) (immutable : Bool) : HandlerOut :=
  match accounts with
  | payer_info :: system_program_info :: mint_info :: metadata_info ::
      mint_authority_info :: rest =>
    if mint_info.owner ≠ apl_token_id then (.fail .IncorrectProgramId, accounts)
    else
      match unpackMint mint_info.data with
      | none => (.fail .InvalidAccountData, accounts)
      | some mint =>
        if mint.is_initialized = false then (.fail .UninitializedAccount, accounts)
        else
          match resolve_creation_authority mint mint_authority_info.key with
          | none => (.fail (MetadataError.InvalidAuthority.toProgramError), accounts)
          | some matched_signer =>
            if mint_authority_info.is_signer = false then
              (.fail (MetadataError.InvalidAuthority.toProgramError), accounts)
            else if cmp_pubkeys
                (find_metadata_pda_with_program fpa program_id mint_info.key).1
                metadata_info.key = false then
              (.fail .InvalidSeeds, accounts)
            else if NAME_MAX_LEN < name.length ∨ SYMBOL_MAX_LEN < symbol.length ∨
                IMAGE_MAX_LEN < image.length ∨ DESCRIPTION_MAX_LEN < description.length then
              (.fail (MetadataError.StringTooLong.toProgramError), accounts)
            else
              match ensure_metadata_account payer_info system_program_info
                  metadata_info program_id with
              | .fail e => (.fail e, accounts)
              | .ok metadata_info2 =>
                let accounts2 := payer_info :: system_program_info :: mint_info ::
                  metadata_info2 :: mint_authority_info :: rest
                if head_nonzero metadata_info2.data then
                  (.fail (MetadataError.MetadataAlreadyExists.toProgramError), accounts2)
                else
                  match TokenMetadata.pack_into_slice
                      { is_initialized := true, mint := mint_info.key, name := name,
                        symbol := symbol, image := image, description := description,
                        update_authority :=
                          if immutable then none else some matched_signer }
                      metadata_info2.data.length with
                  | some buf =>
                      (.ok (), payer_info :: system_program_info :: mint_info ::
                        { metadata_info2 with data := buf } :: mint_authority_info :: rest)
                  | none => (.fail .Panic, accounts2)
  | _ => (.fail .NotEnoughAccountKeys, accounts)

/-- Whether a supplied optional field exceeds its cap (the four if-let size
checks in process_update_metadata). -/
def tooLong (cap : Nat) : Option (List Nat) → Bool
  | some s => cap < s.length
  | none => false

/-- Handler for UpdateMetadata (processor.rs process_update_metadata).
Accounts: metadata, update authority. -/
def process_update_metadata (accounts : List AccountInfo)
    (name symbol image description : Option (List Nat)) : HandlerOut :=
  match accounts with
  | metadata_info :: update_authority_info :: rest =>
    if update_authority_info.is_signer = false then
      (.fail .MissingRequiredSignature, accounts)
    else
      match TokenMetadata.unpack_from_slice metadata_info.data with
      | none => (.fail .InvalidAccountData, accounts)
      | some metadata =>
        if metadata.is_initialized = false then (.fail .UninitializedAccount, accounts)
        else
          match metadata.update_authority with
          | none => (.fail (MetadataError.InvalidAuthority.toProgramError), accounts)
          | some current_auth =>
            if cmp_pubkeys current_auth update_authority_info.key = false then
              (.fail (MetadataError.InvalidAuthority.toProgramError), accounts)
            else if tooLong NAME_MAX_LEN name then
              (.fail (MetadataError.StringTooLong.toProgramError), accounts)
            else if tooLong SYMBOL_MAX_LEN symbol then
              (.fail (MetadataError.StringTooLong.toProgramError), accounts)
            else if tooLong IMAGE_MAX_LEN image then
              (.fail (MetadataError.StringTooLong.toProgramError), accounts)
            else if tooLong DESCRIPTION_MAX_LEN description then
              (.fail (MetadataError.StringTooLong.toProgramError), accounts)
            else
              match TokenMetadata.pack_into_slice
                  { metadata with
                    name := name.getD metadata.name,
                    symbol := symbol.getD metadata.symbol,
                    image := image.getD metadata.image,
                    description := description.getD metadata.description }
                  metadata_info.data.length with
              | some buf =>
                  (.ok (), { metadata_info with data := buf } ::
                    update_authority_info :: rest)
              | none => (.fail .Panic, accounts)
  | _ => (.fail .NotEnoughAccountKeys, accounts)

/-- Handler for CreateAttributes (processor.rs process_create_attributes).
Accounts: payer, system program, mint, attributes, update authority,
metadata (read-only). -/
def process_create_attributes (fpa : PdaFn) (program_id : Pubkey)
    (accounts : List AccountInfo) (data : List (List Nat × List Nat)) : HandlerOut :=
  match accounts with
  | payer_info :: system_program_info :: mint_info :: attributes_info ::
      update_authority_info :: metadata_info :: rest =>
    if (payer_info.is_signer && update_authority_info.is_signer) = false then
      (.fail .MissingRequiredSignature, accounts)
    else if cmp_pubkeys
        (find_attributes_pda_with_program fpa program_id mint_info.key).1
        attributes_info.key = false then
      (.fail .InvalidSeeds, accounts)
    else
      match TokenMetadata.unpack_from_slice metadata_info.data with
      | none => (.fail .InvalidAccountData, accounts)
      | some metadata =>
        if (metadata.is_initialized && cmp_pubkeys metadata.mint mint_info.key) = false then
          (.fail .InvalidAccountData, accounts)
        else
          match metadata.update_authority with
          | none => (.fail (MetadataError.InvalidAuthority.toProgramError), accounts)
          | some current_auth =>
            if cmp_pubkeys current_auth update_authority_info.key = false then
              (.fail (MetadataError.InvalidAuthority.toProgramError), accounts)
            else if MAX_ATTRIBUTES < data.length then
              (.fail (MetadataError.TooManyAttributes.toProgramError), accounts)
            else
              match validate_attribute_pairs data with
              | some e => (.fail e, accounts)
              | none =>
                match ensure_attributes_account payer_info system_program_info
                    attributes_info program_id with
                | .fail e => (.fail e, accounts)
                | .ok attributes_info2 =>
                  let accounts2 := payer_info :: system_program_info :: mint_info ::
                    attributes_info2 :: update_authority_info :: metadata_info :: rest
                  if head_nonzero attributes_info2.data then
                    (.fail (MetadataError.MetadataAlreadyExists.toProgramError), accounts2)
                  else
                    match TokenMetadataAttributes.pack_into_slice
                        { is_initialized := true, mint := mint_info.key, data := data }
                        attributes_info2.data.length with
                    | some buf =>
                        (.ok (), payer_info :: system_program_info :: mint_info ::
                          { attributes_info2 with data := buf } ::
                          update_authority_info :: metadata_info :: rest)
                    | none => (.fail .Panic, accounts2)
  | _ => (.fail .NotEnoughAccountKeys, accounts)

/-- Handler for ReplaceAttributes (processor.rs process_replace_attributes).
Accounts: attributes, update authority, metadata (read-only). The attributes
PDA is recomputed from the mint stored in the metadata record. -/
def process_replace_attributes (fpa : PdaFn) (program_id : Pubkey)
    (accounts : List AccountInfo) (data : List (List Nat × List Nat)) : HandlerOut :=
  match accounts with
  | attributes_info :: update_authority_info :: metadata_info :: rest =>
    if update_authority_info.is_signer = false then
      (.fail .MissingRequiredSignature, accounts)
    else
      match TokenMetadata.unpack_from_slice metadata_info.data with
      | none => (.fail .InvalidAccountData, accounts)
      | some metadata =>
        if metadata.is_initialized = false then (.fail .UninitializedAccount, accounts)
        else
          match metadata.update_authority with
          | none => (.fail (MetadataError.InvalidAuthority.toProgramError), accounts)
          | some current_auth =>
            if cmp_pubkeys current_auth update_authority_info.key = false then
              (.fail (MetadataError.InvalidAuthority.toProgramError), accounts)
            else if cmp_pubkeys
                (find_attributes_pda_with_program fpa program_id metadata.mint).1
                attributes_info.key = false then
              (.fail .InvalidSeeds, accounts)
            else
              match TokenMetadataAttributes.unpack_from_slice attributes_info.data with
              | none => (.fail .InvalidAccountData, accounts)
              | some attrs =>
                if attrs.is_initialized = false then
                  (.fail .UninitializedAccount, accounts)
                else if MAX_ATTRIBUTES < data.length then
                  (.fail (MetadataError.TooManyAttributes.toProgramError), accounts)
                else
                  match validate_attribute_pairs data with
                  | some e => (.fail e, accounts)
                  | none =>
                    match TokenMetadataAttributes.pack_into_slice
                        { attrs with data := data } attributes_info.data.length with
                    | some buf =>
                        (.ok (), { attributes_info with data := buf } ::
                          update_authority_info :: metadata_info :: rest)
                    | none => (.fail .Panic, accounts)
  | _ => (.fail .NotEnoughAccountKeys, accounts)

/-- Handler for TransferAuthority (processor.rs process_transfer_authority).
Accounts: metadata, current authority. -/
def process_transfer_authority (accounts : List AccountInfo)
    (new_authority : Pubkey) : HandlerOut :=
  match accounts with
  | metadata_info :: current_authority_info :: rest =>
    if current_authority_info.is_signer = false then
      (.fail .MissingRequiredSignature, accounts)
    else
      match TokenMetadata.unpack_from_slice metadata_info.data with
      | none => (.fail .InvalidAccountData, accounts)
      | some metadata =>
        if metadata.is_initialized = false then (.fail .UninitializedAccount, accounts)
        else
          match metadata.update_authority with
          | none => (.fail (MetadataError.InvalidAuthority.toProgramError), accounts)
          | some current_auth =>
            if cmp_pubkeys current_auth current_authority_info.key = false then
              (.fail (MetadataError.InvalidAuthority.toProgramError), accounts)
            else
              match TokenMetadata.pack_into_slice
                  { metadata with update_authority := some new_authority }
                  metadata_info.data.length with
              | some buf =>
                  (.ok (), { metadata_info with data := buf } ::
                    current_authority_info :: rest)
              | none => (.fail .Panic, accounts)
  | _ => (.fail .NotEnoughAccountKeys, accounts)

/-- Handler for MakeImmutable (processor.rs process_make_immutable).
Accounts: metadata, current authority. -/
def process_make_immutable (accounts : List AccountInfo) : HandlerOut :=
  match accounts with
  | metadata_info :: current_authority_info :: rest =>
    if current_authority_info.is_signer = false then
      (.fail .MissingRequiredSignature, accounts)
    else
      match TokenMetadata.unpack_from_slice metadata_info.data with
      | none => (.fail .InvalidAccountData, accounts)
      | some metadata =>
        if metadata.is_initialized = false then (.fail .UninitializedAccount, accounts)
        else
          match metadata.update_authority with
          | none => (.fail (MetadataError.InvalidAuthority.toProgramError), accounts)
          | some current_auth =>
            if cmp_pubkeys current_auth current_authority_info.key = false then
              (.fail (MetadataError.InvalidAuthority.toProgramError), accounts)
            else
              match TokenMetadata.pack_into_slice
                  { metadata with update_authority := none }
                  metadata_info.data.length with
              | some buf =>
                  (.ok (), { metadata_info with data := buf } ::
                    current_authority_info :: rest)
              | none => (.fail .Panic, accounts)
  | _ => (.fail .NotEnoughAccountKeys, accounts)

/-- Dispatch of a decoded instruction to its handler (processor.rs process). -/
def process_decoded (fpa : PdaFn) (unpackMint : List Nat → Option Mint)
    (program_id : Pubkey) (accounts : List AccountInfo) :
    MetadataInstruction → HandlerOut
  | .CreateMetadata n s i d imm =>
      process_create_metadata fpa unpackMint program_id accounts n s i d imm
  | .UpdateMetadata n s i d => process_update_metadata accounts n s i d
  | .CreateAttributes dta => process_create_attributes fpa program_id accounts dta
  | .ReplaceAttributes dta => process_replace_attributes fpa program_id accounts dta
  | .TransferAuthority na => process_transfer_authority accounts na
  | .MakeImmutable => process_make_immutable accounts

/-- Entry point: decode the instruction bytes, then dispatch (processor.rs
Processor::process). -/
def process (fpa : PdaFn) (unpackMint : List Nat → Option Mint)
    (program_id : Pubkey) (accounts : List AccountInfo)
    (instruction_data : List Nat) : HandlerOut :=
  match MetadataInstruction.unpack instruction_data with
  | .fail e => (.fail e, accounts)
  | .ok instr => process_decoded fpa unpackMint program_id accounts instr

/-- Validity of a TokenMetadata record: a 32-byte mint, 32-byte authority when
present, and every text field within its cap (the shape of every record the
program itself writes). -/
def TokenMetadata.isValid (md : TokenMetadata) : Bool :=
  md.mint.length == 32 &&
  (match md.update_authority with
   | none => true
   | some p => p.length == 32) &&
  decide (md.name.length ≤ NAME_MAX_LEN) &&
  decide (md.symbol.length ≤ SYMBOL_MAX_LEN) &&
  decide (md.image.length ≤ IMAGE_MAX_LEN) &&
  decide (md.description.length ≤ DESCRIPTION_MAX_LEN)

/-- Validity of a TokenMetadataAttributes record: a 32-byte mint, at most
MAX_ATTRIBUTES pairs, and every key and value within its cap. -/
def TokenMetadataAttributes.isValid (a : TokenMetadataAttributes) : Bool :=
  a.mint.length == 32 &&
  decide (a.data.length ≤ MAX_ATTRIBUTES) &&
  a.data.all fun p =>
    decide (p.1.length ≤ MAX_KEY_LENGTH) && decide (p.2.length ≤ MAX_VALUE_LENGTH)


/-- Sample 32-byte key used by the concrete witnesses. -/
def samplePk (b : Nat) : Pubkey := List.replicate 32 b

/-- Sample deterministic PDA function used by the concrete witnesses. -/
def samplePda : PdaFn := fun _ _ => (List.replicate 32 9, 255)

/-- Sample initialized immutable metadata record used by the witnesses. -/
def sampleImmutableMd : TokenMetadata :=
  { is_initialized := true, mint := samplePk 4, name := [65], symbol := [66],
    image := [67], description := [68], update_authority := none }

/-- Serialized buffer of the sample immutable record. -/
def sampleImmutableBuf : List Nat :=
  (serializeTokenMetadata sampleImmutableMd).getD []

/-- Sample metadata account holding the immutable record. -/
def sampleMdAccount : AccountInfo :=
  { key := samplePk 10, owner := samplePk 3, is_signer := false,
    data := sampleImmutableBuf }

/-- Sample signing authority account. -/
def sampleAuthAccount : AccountInfo :=
  { key := samplePk 7, owner := samplePk 0, is_signer := true, data := [] }


/-- Sample system-program account used by the concrete witnesses. -/
def sampleSysAccount : AccountInfo :=
  { key := system_program_id, owner := samplePk 0, is_signer := false, data := [] }

/-- Sample mint state whose mint authority is the sample authority key. -/
def sampleMint : Mint :=
  { mint_authority := some (samplePk 7), freeze_authority := none,
    is_initialized := true }

/-- Sample token-state reader that always returns the sample mint. -/
def sampleUnpackMint : List Nat → Option Mint := fun _ => some sampleMint

/-- Sample mint account owned by the token program. -/
def sampleMintAccount : AccountInfo :=
  { key := samplePk 4, owner := apl_token_id, is_signer := false, data := [] }

/-- Sample empty metadata account at the sample PDA address. -/
def sampleFreshMdAccount : AccountInfo :=
  { key := samplePk 9, owner := samplePk 3, is_signer := false, data := [] }


/-- Sample initialized mutable metadata record used by the witnesses. -/
def sampleMutableMd : TokenMetadata :=
  { is_initialized := true, mint := samplePk 4, name := [65], symbol := [66],
    image := [67], description := [68], update_authority := some (samplePk 7) }

/-- Sample program-owned metadata account holding the mutable record. -/
def sampleOwnedMdAccount : AccountInfo :=
  { key := samplePk 9, owner := samplePk 5, is_signer := false,
    data := (serializeTokenMetadata sampleMutableMd).getD [] }


/-- Sample program-owned metadata account with a full-size packed buffer. -/
def sampleBigMdAccount : AccountInfo :=
  { key := samplePk 9, owner := samplePk 5, is_signer := false,
    data := (TokenMetadata.pack_into_slice sampleMutableMd
      TOKEN_METADATA_MAX_LEN).getD [] }


/-- Sample initialized attributes record used by the witnesses. -/
def sampleAttrsRecord : TokenMetadataAttributes :=
  { is_initialized := true, mint := samplePk 4, data := [([75], [86])] }

/-- Serialized bytes of the sample attributes record, zero-padded to the
full attributes account size. -/
def sampleAttrsBuf : List Nat :=
  (serializeAttributes sampleAttrsRecord).getD [] ++
    List.replicate (TOKEN_METADATA_ATTRIBUTES_MAX_LEN -
      ((serializeAttributes sampleAttrsRecord).getD []).length) 0

/-- Sample program-owned attributes account with a full-size buffer. -/
def sampleAttrsAccount : AccountInfo :=
  { key := samplePk 9, owner := samplePk 5, is_signer := false,
    data := sampleAttrsBuf }


/-- Sample token-state reader that rejects every mint buffer. -/
def sampleNoMint : List Nat → Option Mint := fun _ => none

/-- Reading back a 4-byte little-endian prefix recovers any value below 2^32. -/
theorem readU32_u32LE (n : Nat) (r : List Nat) (h : n < 4294967296) :
    readU32 (u32LE n ++ r) = some (n, r) := by
  simp only [u32LE, List.cons_append, List.nil_append, readU32]
  have : n % 256 + 256 * (n / 256 % 256) + 65536 * (n / 65536 % 256) +
      16777216 * (n / 16777216 % 256) = n := by omega
  rw [this]

/-- Characterization of a successful string encoding. -/
theorem encodeBytes_eq {s b : List Nat} (h : encodeBytes s = some b) :
    s.length < 4294967296 ∧ b = u32LE s.length ++ s := by
  unfold encodeBytes at h
  split at h <;> simp_all

/-- Reading back an encoded string recovers it and the remaining bytes. -/
theorem readBytes_encode {s b : List Nat} (h : encodeBytes s = some b)
    (r : List Nat) : readBytes (b ++ r) = some (s, r) := by
  obtain ⟨hlt, rfl⟩ := encodeBytes_eq h
  rw [List.append_assoc]
  simp only [readBytes, readU32_u32LE _ _ hlt]
  have hle : s.length ≤ (s ++ r).length := by simp
  rw [if_pos hle]
  simp [List.take_left, List.drop_left]

/-- Characterization of a successful pubkey encoding. -/
theorem encodePubkey_eq {p b : Pubkey} (h : encodePubkey p = some b) :
    b = p ∧ p.length = 32 := by
  unfold encodePubkey at h
  split at h <;> simp_all

/-- Reading back 32 bytes recovers a 32-byte key and the remaining bytes. -/
theorem readPubkey_append {p : Pubkey} (h : p.length = 32) (r : List Nat) :
    readPubkey (p ++ r) = some (p, r) := by
  unfold readPubkey
  have hle : 32 ≤ (p ++ r).length := by simp [h]
  rw [if_pos hle]
  rw [← h, List.take_left, List.drop_left]

/-- Reading back an encoded bool recovers it. -/
theorem readBool_encode (b : Bool) (r : List Nat) :
    readBool (encodeBool b ++ r) = some (b, r) := by
  cases b <;> rfl

/-- Reading back an encoded optional pubkey recovers it. -/
theorem readOptionPubkey_encode {o : Option Pubkey} {b : List Nat}
    (h : encodeOptionPubkey o = some b) (r : List Nat) :
    readOptionPubkey (b ++ r) = some (o, r) := by
  cases o with
  | none =>
      unfold encodeOptionPubkey at h
      simp only [Option.some.injEq] at h
      subst h
      rfl
  | some p =>
      cases hbp : encodePubkey p with
      | none => simp [encodeOptionPubkey, hbp] at h
      | some bp =>
          simp only [encodeOptionPubkey, hbp, Option.some.injEq] at h
          subst h
          obtain ⟨rfl, h32⟩ := encodePubkey_eq hbp
          simp [readOptionPubkey, readPubkey_append h32]

/-- Reading back an encoded optional string recovers it. -/
theorem readOptionBytes_encode {o : Option (List Nat)} {b : List Nat}
    (h : encodeOptionBytes o = some b) (r : List Nat) :
    readOptionBytes (b ++ r) = some (o, r) := by
  cases o with
  | none =>
      unfold encodeOptionBytes at h
      simp only [Option.some.injEq] at h
      subst h
      rfl
  | some s =>
      cases hbs : encodeBytes s with
      | none => simp [encodeOptionBytes, hbs] at h
      | some bs =>
          simp only [encodeOptionBytes, hbs, Option.some.injEq] at h
          subst h
          simp [readOptionBytes, readBytes_encode hbs]

/-- Reading back an encoded pair recovers it. -/
theorem readPair_encode {p : List Nat × List Nat} {b : List Nat}
    (h : encodePair p = some b) (r : List Nat) :
    readPair (b ++ r) = some (p, r) := by
  unfold encodePair at h
  split at h
  case _ bk bv hk hv =>
    simp only [Option.some.injEq] at h
    subst h
    rw [List.append_assoc]
    simp [readPair, readBytes_encode hk, readBytes_encode hv]
  case _ => exact absurd h (by simp)

/-- Reading back an encoded run of pairs recovers them. -/
theorem readPairs_encode {l : List (List Nat × List Nat)} {body : List Nat}
    (h : encodePairsBody l = some body) (r : List Nat) :
    readPairs l.length (body ++ r) = some (l, r) := by
  induction l generalizing body r with
  | nil =>
      unfold encodePairsBody at h
      simp only [Option.some.injEq] at h
      subst h
      rfl
  | cons p t ih =>
      unfold encodePairsBody at h
      split at h
      case _ b rb hp ht =>
        simp only [Option.some.injEq] at h
        subst h
        rw [List.length_cons, List.append_assoc]
        simp [readPairs, readPair_encode hp, ih ht]
      case _ => exact absurd h (by simp)

/-- Reading back an encoded vector of pairs recovers it. -/
theorem readVecPairs_encode {l : List (List Nat × List Nat)} {b : List Nat}
    (h : encodeVecPairs l = some b) (r : List Nat) :
    readVecPairs (b ++ r) = some (l, r) := by
  unfold encodeVecPairs at h
  split at h
  case isTrue hlt =>
    split at h
    case _ body hbody =>
      simp only [Option.some.injEq] at h
      subst h
      rw [List.append_assoc]
      unfold readVecPairs
      rw [readU32_u32LE _ _ hlt]
      exact readPairs_encode hbody r
    case _ => exact absurd h (by simp)
  case isFalse => exact absurd h (by simp)

/-- Deserializing a serialized TokenMetadata recovers it and the remainder. -/
theorem deserialize_serialize_md {md : TokenMetadata} {b : List Nat}
    (h : serializeTokenMetadata md = some b) (r : List Nat) :
    deserializeTokenMetadata (b ++ r) = some (md, r) := by
  unfold serializeTokenMetadata at h
  split at h
  case _ mb nb sb ib db ab hm hn hs hi hd ha =>
    simp only [Option.some.injEq] at h
    subst h
    obtain ⟨rfl, hm32⟩ := encodePubkey_eq hm
    simp only [List.append_assoc]
    simp only [deserializeTokenMetadata, readBool_encode,
      readPubkey_append hm32, readBytes_encode hn, readBytes_encode hs,
      readBytes_encode hi, readBytes_encode hd, readOptionPubkey_encode ha]
  case _ => exact absurd h (by simp)

/-- Deserializing a serialized TokenMetadataAttributes recovers it. -/
theorem deserialize_serialize_attrs {a : TokenMetadataAttributes} {b : List Nat}
    (h : serializeAttributes a = some b) (r : List Nat) :
    deserializeAttributes (b ++ r) = some (a, r) := by
  unfold serializeAttributes at h
  split at h
  case _ mb db hm hd =>
    simp only [Option.some.injEq] at h
    subst h
    obtain ⟨rfl, hm32⟩ := encodePubkey_eq hm
    simp only [List.append_assoc]
    simp only [deserializeAttributes, readBool_encode,
      readPubkey_append hm32, readVecPairs_encode hd]
  case _ => exact absurd h (by simp)

/-- Unpack of a packed TokenMetadata recovers the record: pack writes the
serialized bytes then zero padding, and unpack ignores the padding. -/
theorem unpack_pack_md {md : TokenMetadata} {dstLen : Nat} {buf : List Nat}
    (h : TokenMetadata.pack_into_slice md dstLen = some buf) :
    TokenMetadata.unpack_from_slice buf = some md := by
  unfold TokenMetadata.pack_into_slice at h
  split at h
  case _ d hd =>
    split at h
    case isTrue hle =>
      simp only [Option.some.injEq] at h
      subst h
      unfold TokenMetadata.unpack_from_slice
      rw [deserialize_serialize_md hd]
      rfl
    case isFalse => exact absurd h (by simp)
  case _ => exact absurd h (by simp)

/-- Unpack of a packed TokenMetadataAttributes recovers the record. -/
theorem unpack_pack_attrs {a : TokenMetadataAttributes} {dstLen : Nat} {buf : List Nat}
    (h : TokenMetadataAttributes.pack_into_slice a dstLen = some buf) :
    TokenMetadataAttributes.unpack_from_slice buf = some a := by
  unfold TokenMetadataAttributes.pack_into_slice at h
  split at h
  case _ d hd =>
    split at h
    case isTrue hle =>
      simp only [Option.some.injEq] at h
      subst h
      unfold TokenMetadataAttributes.unpack_from_slice
      rw [deserialize_serialize_attrs hd]
      rfl
    case isFalse => exact absurd h (by simp)
  case _ => exact absurd h (by simp)

/-- Deserializing a serialized instruction recovers it and the remainder. -/
theorem deserialize_serialize_instr {i : MetadataInstruction} {b : List Nat}
    (h : i.serialize = some b) (r : List Nat) :
    MetadataInstruction.deserialize (b ++ r) = some (i, r) := by
  cases i with
  | CreateMetadata n s im d imm =>
      simp only [MetadataInstruction.serialize] at h
      split at h
      case _ bn bs bi bd hn hs hi hd =>
        simp only [Option.some.injEq] at h
        subst h
        simp only [List.append_assoc, List.cons_append, List.nil_append]
        simp only [MetadataInstruction.deserialize, readBytes_encode hn,
          readBytes_encode hs, readBytes_encode hi, readBytes_encode hd,
          readBool_encode]
      case _ => exact absurd h (by simp)
  | UpdateMetadata n s im d =>
      simp only [MetadataInstruction.serialize] at h
      split at h
      case _ bn bs bi bd hn hs hi hd =>
        simp only [Option.some.injEq] at h
        subst h
        simp only [List.append_assoc, List.cons_append, List.nil_append]
        simp only [MetadataInstruction.deserialize, readOptionBytes_encode hn,
          readOptionBytes_encode hs, readOptionBytes_encode hi,
          readOptionBytes_encode hd]
      case _ => exact absurd h (by simp)
  | CreateAttributes dta =>
      simp only [MetadataInstruction.serialize] at h
      split at h
      case _ bv hv =>
        simp only [Option.some.injEq] at h
        subst h
        simp only [List.append_assoc, List.cons_append, List.nil_append]
        simp only [MetadataInstruction.deserialize, readVecPairs_encode hv]
      case _ => exact absurd h (by simp)
  | ReplaceAttributes dta =>
      simp only [MetadataInstruction.serialize] at h
      split at h
      case _ bv hv =>
        simp only [Option.some.injEq] at h
        subst h
        simp only [List.append_assoc, List.cons_append, List.nil_append]
        simp only [MetadataInstruction.deserialize, readVecPairs_encode hv]
      case _ => exact absurd h (by simp)
  | TransferAuthority na =>
      simp only [MetadataInstruction.serialize] at h
      split at h
      case _ bp hp =>
        simp only [Option.some.injEq] at h
        subst h
        obtain ⟨rfl, h32⟩ := encodePubkey_eq hp
        simp only [List.append_assoc, List.cons_append, List.nil_append]
        simp only [MetadataInstruction.deserialize, readPubkey_append h32]
      case _ => exact absurd h (by simp)
  | MakeImmutable =>
      simp only [MetadataInstruction.serialize, Option.some.injEq] at h
      subst h
      rfl

/-- Successful string encoding under the u32 bound. -/
theorem encodeBytes_some (s : List Nat) (h : s.length < 4294967296) :
    encodeBytes s = some (u32LE s.length ++ s) := by
  unfold encodeBytes
  rw [if_pos h]

/-- A successfully read pubkey has exactly 32 bytes. -/
theorem readPubkey_length {bs : List Nat} {p : Pubkey} {r : List Nat}
    (h : readPubkey bs = some (p, r)) : p.length = 32 := by
  unfold readPubkey at h
  split at h
  case isTrue hle =>
    simp only [Option.some.injEq, Prod.mk.injEq] at h
    obtain ⟨rfl, rfl⟩ := h
    simp [List.length_take]
    omega
  case isFalse => exact absurd h (by simp)

/-- A successfully read optional pubkey is either absent or 32 bytes long. -/
theorem readOptionPubkey_length {bs : List Nat} {o : Option Pubkey} {r : List Nat}
    (h : readOptionPubkey bs = some (o, r)) :
    ∀ p, o = some p → p.length = 32 := by
  unfold readOptionPubkey at h
  split at h
  · simp only [Option.some.injEq, Prod.mk.injEq] at h
    obtain ⟨rfl, rfl⟩ := h
    intro p hp
    exact absurd hp (by simp)
  · rename_i rest
    cases h2 : readPubkey rest with
    | none => rw [h2] at h; exact absurd h (by simp)
    | some pr =>
        obtain ⟨q, rr⟩ := pr
        rw [h2] at h
        simp only [Option.some.injEq, Prod.mk.injEq] at h
        obtain ⟨rfl, rfl⟩ := h
        intro p hp
        obtain rfl : q = p := by simpa using hp
        exact readPubkey_length h2
  · exact absurd h (by simp)

/-- The byte a successful bool read consumed. -/
theorem readBool_shape {bs : List Nat} {x : Bool} {r : List Nat}
    (h : readBool bs = some (x, r)) : bs = (if x then 1 else 0) :: r := by
  unfold readBool at h
  split at h <;> simp_all

/-- Inversion of a successful TokenMetadata deserialization into its
field-by-field reads. -/
theorem deserializeTokenMetadata_inv {bs : List Nat} {md : TokenMetadata}
    {r : List Nat} (h : deserializeTokenMetadata bs = some (md, r)) :
    ∃ bs1 bs2 bs3 bs4 bs5 bs6,
      readBool bs = some (md.is_initialized, bs1) ∧
      readPubkey bs1 = some (md.mint, bs2) ∧
      readBytes bs2 = some (md.name, bs3) ∧
      readBytes bs3 = some (md.symbol, bs4) ∧
      readBytes bs4 = some (md.image, bs5) ∧
      readBytes bs5 = some (md.description, bs6) ∧
      readOptionPubkey bs6 = some (md.update_authority, r) := by
  cases h1 : readBool bs with
  | none => simp [deserializeTokenMetadata, h1] at h
  | some pr1 =>
    obtain ⟨ini, bs1⟩ := pr1
    cases h2 : readPubkey bs1 with
    | none => simp [deserializeTokenMetadata, h1, h2] at h
    | some pr2 =>
      obtain ⟨mint, bs2⟩ := pr2
      cases h3 : readBytes bs2 with
      | none => simp [deserializeTokenMetadata, h1, h2, h3] at h
      | some pr3 =>
        obtain ⟨name, bs3⟩ := pr3
        cases h4 : readBytes bs3 with
        | none => simp [deserializeTokenMetadata, h1, h2, h3, h4] at h
        | some pr4 =>
          obtain ⟨symbol, bs4⟩ := pr4
          cases h5 : readBytes bs4 with
          | none => simp [deserializeTokenMetadata, h1, h2, h3, h4, h5] at h
          | some pr5 =>
            obtain ⟨image, bs5⟩ := pr5
            cases h6 : readBytes bs5 with
            | none => simp [deserializeTokenMetadata, h1, h2, h3, h4, h5, h6] at h
            | some pr6 =>
              obtain ⟨description, bs6⟩ := pr6
              cases h7 : readOptionPubkey bs6 with
              | none =>
                  simp [deserializeTokenMetadata, h1, h2, h3, h4, h5, h6, h7] at h
              | some pr7 =>
                obtain ⟨auth, bs7⟩ := pr7
                simp only [deserializeTokenMetadata, h1, h2, h3, h4, h5, h6, h7,
                  Option.some.injEq, Prod.mk.injEq] at h
                obtain ⟨rfl, rfl⟩ := h
                refine ⟨bs1, bs2, bs3, bs4, bs5, bs6, ?_, ?_, ?_, ?_, ?_, ?_, ?_⟩ <;>
                  first
                    | rfl
                    | exact h1
                    | exact h2
                    | exact h3
                    | exact h4
                    | exact h5
                    | exact h6
                    | exact h7

/-- Inversion of a successful TokenMetadataAttributes deserialization. -/
theorem deserializeAttributes_inv {bs : List Nat} {a : TokenMetadataAttributes}
    {r : List Nat} (h : deserializeAttributes bs = some (a, r)) :
    ∃ bs1 bs2,
      readBool bs = some (a.is_initialized, bs1) ∧
      readPubkey bs1 = some (a.mint, bs2) ∧
      readVecPairs bs2 = some (a.data, r) := by
  cases h1 : readBool bs with
  | none => simp [deserializeAttributes, h1] at h
  | some pr1 =>
    obtain ⟨ini, bs1⟩ := pr1
    cases h2 : readPubkey bs1 with
    | none => simp [deserializeAttributes, h1, h2] at h
    | some pr2 =>
      obtain ⟨mint, bs2⟩ := pr2
      cases h3 : readVecPairs bs2 with
      | none => simp [deserializeAttributes, h1, h2, h3] at h
      | some pr3 =>
        obtain ⟨dta, bs3⟩ := pr3
        simp only [deserializeAttributes, h1, h2, h3, Option.some.injEq,
          Prod.mk.injEq] at h
        obtain ⟨rfl, rfl⟩ := h
        refine ⟨bs1, bs2, ?_, ?_, ?_⟩ <;>
          first
            | rfl
            | exact h1
            | exact h2
            | exact h3

/-- The first byte of a buffer holding a deserializable TokenMetadata is its
initialization flag. -/
theorem deserialize_md_first_byte {bs : List Nat} {md : TokenMetadata}
    {r : List Nat} (h : deserializeTokenMetadata bs = some (md, r)) :
    head_nonzero bs = md.is_initialized := by
  obtain ⟨bs1, _, _, _, _, _, h1, -⟩ := deserializeTokenMetadata_inv h
  rw [readBool_shape h1]
  cases md.is_initialized <;> simp [head_nonzero]

/-- The first byte of a zero-filled buffer is not nonzero. -/
theorem head_nonzero_replicate (n : Nat) :
    head_nonzero (List.replicate n 0) = false := by
  cases n <;> simp [head_nonzero, List.replicate]

/-- Serialization of a TokenMetadata succeeds with a known length whenever the
keys are 32 bytes and the text fields are within their caps. -/
theorem serializeTokenMetadata_exists (md : TokenMetadata)
    (h1 : md.mint.length = 32)
    (h2 : md.name.length ≤ NAME_MAX_LEN)
    (h3 : md.symbol.length ≤ SYMBOL_MAX_LEN)
    (h4 : md.image.length ≤ IMAGE_MAX_LEN)
    (h5 : md.description.length ≤ DESCRIPTION_MAX_LEN)
    (h6 : ∀ p, md.update_authority = some p → p.length = 32) :
    ∃ b, serializeTokenMetadata md = some b ∧ b.length ≤ TOKEN_METADATA_MAX_LEN := by
  simp only [NAME_MAX_LEN] at h2
  simp only [SYMBOL_MAX_LEN] at h3
  simp only [IMAGE_MAX_LEN] at h4
  simp only [DESCRIPTION_MAX_LEN] at h5
  have hn : md.name.length < 4294967296 := by omega
  have hs : md.symbol.length < 4294967296 := by omega
  have hi : md.image.length < 4294967296 := by omega
  have hd : md.description.length < 4294967296 := by omega
  have e1 : encodePubkey md.mint = some md.mint := by simp [encodePubkey, h1]
  cases hu : md.update_authority with
  | none =>
      refine ⟨encodeBool md.is_initialized ++ md.mint ++
        (u32LE md.name.length ++ md.name) ++ (u32LE md.symbol.length ++ md.symbol) ++
        (u32LE md.image.length ++ md.image) ++
        (u32LE md.description.length ++ md.description) ++ [0], ?_, ?_⟩
      · simp only [serializeTokenMetadata, e1, encodeBytes_some _ hn,
          encodeBytes_some _ hs, encodeBytes_some _ hi, encodeBytes_some _ hd,
          hu, encodeOptionPubkey]
      · simp only [TOKEN_METADATA_MAX_LEN, NAME_MAX_LEN, SYMBOL_MAX_LEN,
          IMAGE_MAX_LEN, DESCRIPTION_MAX_LEN, List.length_append, u32LE,
          encodeBool, List.length_cons, List.length_nil, h1]
        omega
  | some p =>
      have hp := h6 p hu
      have e6 : encodeOptionPubkey (some p) = some (1 :: p) := by
        simp [encodeOptionPubkey, encodePubkey, hp]
      refine ⟨encodeBool md.is_initialized ++ md.mint ++
        (u32LE md.name.length ++ md.name) ++ (u32LE md.symbol.length ++ md.symbol) ++
        (u32LE md.image.length ++ md.image) ++
        (u32LE md.description.length ++ md.description) ++ (1 :: p), ?_, ?_⟩
      · simp only [serializeTokenMetadata, e1, encodeBytes_some _ hn,
          encodeBytes_some _ hs, encodeBytes_some _ hi, encodeBytes_some _ hd,
          hu, e6]
      · simp only [TOKEN_METADATA_MAX_LEN, NAME_MAX_LEN, SYMBOL_MAX_LEN,
          IMAGE_MAX_LEN, DESCRIPTION_MAX_LEN, List.length_append, u32LE,
          encodeBool, List.length_cons, List.length_nil, List.length_singleton,
          h1, hp]
        omega

/-- Serialization of the pair list succeeds, with a length bounded by 312 per
pair, whenever every key and value is within its cap. -/
theorem encodePairsBody_exists (l : List (List Nat × List Nat))
    (hall : ∀ p ∈ l, p.1.length ≤ MAX_KEY_LENGTH ∧ p.2.length ≤ MAX_VALUE_LENGTH) :
    ∃ b, encodePairsBody l = some b ∧ b.length ≤ l.length * 312 := by
  induction l with
  | nil => exact ⟨[], rfl, by simp⟩
  | cons q t ih =>
      obtain ⟨hk, hv⟩ := hall q (by simp)
      obtain ⟨tb, htb, htblen⟩ := ih fun p hp => hall p (by simp [hp])
      simp only [MAX_KEY_LENGTH] at hk
      simp only [MAX_VALUE_LENGTH] at hv
      have hk32 : q.1.length < 4294967296 := by omega
      have hv32 : q.2.length < 4294967296 := by omega
      have hq : encodePair q = some ((u32LE q.1.length ++ q.1) ++ (u32LE q.2.length ++ q.2)) := by
        simp only [encodePair, encodeBytes_some _ hk32, encodeBytes_some _ hv32]
      refine ⟨(u32LE q.1.length ++ q.1 ++ (u32LE q.2.length ++ q.2)) ++ tb, ?_, ?_⟩
      · simp only [encodePairsBody, hq, htb]
      · simp only [List.length_append, List.length_cons, u32LE,
          List.length_singleton, List.length_nil]
        have h312 : (t.length + 1) * 312 = t.length * 312 + 312 := by ring
        omega

/-- Serialization of a TokenMetadataAttributes succeeds within the account
maximum whenever the mint is 32 bytes and the pair list is within caps. -/
theorem serializeAttributes_exists (a : TokenMetadataAttributes)
    (h1 : a.mint.length = 32)
    (h2 : a.data.length ≤ MAX_ATTRIBUTES)
    (hall : ∀ p ∈ a.data, p.1.length ≤ MAX_KEY_LENGTH ∧ p.2.length ≤ MAX_VALUE_LENGTH) :
    ∃ b, serializeAttributes a = some b ∧
      b.length ≤ TOKEN_METADATA_ATTRIBUTES_MAX_LEN := by
  obtain ⟨body, hbody, hblen⟩ := encodePairsBody_exists a.data hall
  simp only [MAX_ATTRIBUTES] at h2
  have hcnt : a.data.length < 4294967296 := by omega
  have e1 : encodePubkey a.mint = some a.mint := by simp [encodePubkey, h1]
  have ev : encodeVecPairs a.data = some (u32LE a.data.length ++ body) := by
    unfold encodeVecPairs
    rw [if_pos hcnt, hbody]
  refine ⟨encodeBool a.is_initialized ++ a.mint ++ (u32LE a.data.length ++ body),
    ?_, ?_⟩
  · simp only [serializeAttributes, e1, ev]
  · simp only [TOKEN_METADATA_ATTRIBUTES_MAX_LEN, MAX_ATTRIBUTES,
      MAX_KEY_LENGTH, MAX_VALUE_LENGTH, List.length_append, u32LE, encodeBool,
      List.length_cons, List.length_nil, List.length_singleton, h1]
    omega

/-- A pair list that passes the validation loop has every key and value
nonempty and within its cap. -/
theorem validate_attribute_pairs_bounds {l : List (List Nat × List Nat)}
    (h : validate_attribute_pairs l = none) :
    ∀ p ∈ l, 1 ≤ p.1.length ∧ p.1.length ≤ MAX_KEY_LENGTH ∧
      1 ≤ p.2.length ∧ p.2.length ≤ MAX_VALUE_LENGTH := by
  induction l with
  | nil => simp
  | cons q t ih =>
      unfold validate_attribute_pairs at h
      split at h
      · exact absurd h (by simp)
      · split at h
        · exact absurd h (by simp)
        · rename_i hne hlong
          intro p hp
          rcases List.mem_cons.mp hp with rfl | hpt
          · constructor
            · omega
            · refine ⟨?_, ?_, ?_⟩ <;> omega
          · exact ih h p hpt

/-- When every pair is within its caps but some pair has an empty key or
value, the validation loop reports InvalidInstructionData. -/
theorem validate_attribute_pairs_empty {l : List (List Nat × List Nat)}
    (hcaps : ∀ p ∈ l, p.1.length ≤ MAX_KEY_LENGTH ∧ p.2.length ≤ MAX_VALUE_LENGTH)
    (hsome : ∃ p ∈ l, p.1.length = 0 ∨ p.2.length = 0) :
    validate_attribute_pairs l =
      some (MetadataError.InvalidInstructionData.toProgramError) := by
  induction l with
  | nil => simp at hsome
  | cons q t ih =>
      unfold validate_attribute_pairs
      by_cases hq : q.1.length = 0 ∨ q.2.length = 0
      · rw [if_pos hq]
      · rw [if_neg hq]
        obtain ⟨hk, hv⟩ := hcaps q (by simp)
        rw [if_neg (by omega)]
        apply ih
        · exact fun p hp => hcaps p (by simp [hp])
        · obtain ⟨p, hp, hcase⟩ := hsome
          rcases List.mem_cons.mp hp with rfl | hpt
          · exact absurd hcase hq
          · exact ⟨p, hpt, hcase⟩

/-- When every pair is nonempty but some key or value exceeds its cap, the
validation loop reports StringTooLong. -/
theorem validate_attribute_pairs_too_long {l : List (List Nat × List Nat)}
    (hne : ∀ p ∈ l, 1 ≤ p.1.length ∧ 1 ≤ p.2.length)
    (hsome : ∃ p ∈ l, MAX_KEY_LENGTH < p.1.length ∨ MAX_VALUE_LENGTH < p.2.length) :
    validate_attribute_pairs l =
      some (MetadataError.StringTooLong.toProgramError) := by
  induction l with
  | nil => simp at hsome
  | cons q t ih =>
      unfold validate_attribute_pairs
      obtain ⟨hk, hv⟩ := hne q (by simp)
      rw [if_neg (by omega)]
      by_cases hq : MAX_KEY_LENGTH < q.1.length ∨ MAX_VALUE_LENGTH < q.2.length
      · rw [if_pos hq]
      · rw [if_neg hq]
        apply ih
        · exact fun p hp => hne p (by simp [hp])
        · obtain ⟨p, hp, hcase⟩ := hsome
          rcases List.mem_cons.mp hp with rfl | hpt
          · exact absurd hcase hq
          · exact ⟨p, hpt, hcase⟩

/-- A successful on-demand metadata creation step either leaves the account
untouched (already owned by the program) or yields the freshly created
zero-filled account. -/
theorem ensure_metadata_account_ok {payer_info system_program_info target : AccountInfo}
    {program_id : Pubkey} {a2 : AccountInfo}
    (h : ensure_metadata_account payer_info system_program_info target program_id =
      .ok a2) :
    a2 = target ∨
      (target.data = [] ∧
        a2 = { target with
               owner := program_id,
               data := List.replicate TOKEN_METADATA_MAX_LEN 0 }) := by
  unfold ensure_metadata_account at h
  split at h
  · split at h
    · exact absurd h (by simp)
    · split at h
      · exact absurd h (by simp)
      · cases hc : cpi_create_account target TOKEN_METADATA_MAX_LEN program_id with
        | none => rw [hc] at h; exact absurd h (by simp)
        | some a =>
            rw [hc] at h
            simp only [PResult.ok.injEq] at h
            subst h
            unfold cpi_create_account at hc
            split at hc
            · rename_i hemp
              simp only [Option.some.injEq] at hc
              right
              exact ⟨List.length_eq_zero.mp hemp, hc.symm⟩
            · exact absurd hc (by simp)
  · simp only [PResult.ok.injEq] at h
    left
    exact h.symm

/-- A successful on-demand attributes creation step either leaves the account
untouched, with exactly the full attributes size, or yields the freshly
created zero-filled account. -/
theorem ensure_attributes_account_ok {payer_info system_program_info target : AccountInfo}
    {program_id : Pubkey} {a2 : AccountInfo}
    (h : ensure_attributes_account payer_info system_program_info target program_id =
      .ok a2) :
    (a2 = target ∧ target.data.length = TOKEN_METADATA_ATTRIBUTES_MAX_LEN) ∨
      (target.data = [] ∧
        a2 = { target with
               owner := program_id,
               data := List.replicate TOKEN_METADATA_ATTRIBUTES_MAX_LEN 0 }) := by
  unfold ensure_attributes_account at h
  split at h
  · split at h
    · exact absurd h (by simp)
    · split at h
      · exact absurd h (by simp)
      · cases hc : cpi_create_account target TOKEN_METADATA_ATTRIBUTES_MAX_LEN
            program_id with
        | none => rw [hc] at h; exact absurd h (by simp)
        | some a =>
            rw [hc] at h
            simp only [PResult.ok.injEq] at h
            subst h
            unfold cpi_create_account at hc
            split at hc
            · rename_i hemp
              simp only [Option.some.injEq] at hc
              right
              exact ⟨List.length_eq_zero.mp hemp, hc.symm⟩
            · exact absurd hc (by simp)
  · split at h
    · exact absurd h (by simp)
    · rename_i hown hlen
      simp only [PResult.ok.injEq] at h
      left
      refine ⟨h.symm, ?_⟩
      omega

/-- The matched creation authority is always the supplied authority key. -/
theorem resolve_creation_authority_eq {m : Mint} {k a : Pubkey}
    (h : resolve_creation_authority m k = some a) : a = k := by
  unfold resolve_creation_authority at h
  split at h
  · split at h
    · rename_i mint_auth hq
      simp only [Option.some.injEq] at h
      subst h
      unfold cmp_pubkeys at hq
      exact eq_of_beq hq
    · exact absurd h (by simp)
  · split at h
    · split at h
      · rename_i freeze_auth hq
        simp only [Option.some.injEq] at h
        subst h
        unfold cmp_pubkeys at hq
        exact eq_of_beq hq
      · exact absurd h (by simp)
    · exact absurd h (by simp)

/-- UpdateMetadata either leaves every account unchanged or succeeds. -/
theorem update_metadata_cases (accounts : List AccountInfo)
    (name symbol image description : Option (List Nat)) :
    (process_update_metadata accounts name symbol image description).2 = accounts ∨
      (process_update_metadata accounts name symbol image description).1 = .ok () := by
  unfold process_update_metadata
  repeat' split
  all_goals first
    | (left ; rfl)
    | (right ; rfl)

/-- TransferAuthority either leaves every account unchanged or succeeds. -/
theorem transfer_authority_cases (accounts : List AccountInfo) (na : Pubkey) :
    (process_transfer_authority accounts na).2 = accounts ∨
      (process_transfer_authority accounts na).1 = .ok () := by
  unfold process_transfer_authority
  repeat' split
  all_goals first
    | (left ; rfl)
    | (right ; rfl)

/-- MakeImmutable either leaves every account unchanged or succeeds. -/
theorem make_immutable_cases (accounts : List AccountInfo) :
    (process_make_immutable accounts).2 = accounts ∨
      (process_make_immutable accounts).1 = .ok () := by
  unfold process_make_immutable
  repeat' split
  all_goals first
    | (left ; rfl)
    | (right ; rfl)

/-- ReplaceAttributes either leaves every account unchanged or succeeds. -/
theorem replace_attributes_cases (fpa : PdaFn) (program_id : Pubkey)
    (accounts : List AccountInfo) (data : List (List Nat × List Nat)) :
    (process_replace_attributes fpa program_id accounts data).2 = accounts ∨
      (process_replace_attributes fpa program_id accounts data).1 = .ok () := by
  unfold process_replace_attributes
  repeat' split
  all_goals first
    | (left ; rfl)
    | (right ; rfl)

/-- CreateMetadata either leaves every account unchanged or succeeds,
provided the mint and authority account keys are genuine 32-byte keys (as
every Rust Pubkey is): after the on-demand creation step the remaining
checks cannot fail, so no error is raised after that write. -/
theorem create_metadata_cases (fpa : PdaFn) (unpackMint : List Nat → Option Mint)
    (program_id : Pubkey)
    (payer_info system_program_info mint_info metadata_info mint_authority_info :
      AccountInfo) (rest : List AccountInfo)
    (name symbol image description : List Nat) (immutable : Bool)
    (hmint : mint_info.key.length = 32)
    (hauth : mint_authority_info.key.length = 32) :
    (process_create_metadata fpa unpackMint program_id
        (payer_info :: system_program_info :: mint_info :: metadata_info ::
          mint_authority_info :: rest) name symbol image description immutable).2 =
      payer_info :: system_program_info :: mint_info :: metadata_info ::
        mint_authority_info :: rest ∨
    (process_create_metadata fpa unpackMint program_id
        (payer_info :: system_program_info :: mint_info :: metadata_info ::
          mint_authority_info :: rest) name symbol image description immutable).1 =
      .ok () := by
  simp only [process_create_metadata]
  by_cases h1 : mint_info.owner ≠ apl_token_id
  · rw [if_pos h1]
    left
    rfl
  rw [if_neg h1]
  cases hm : unpackMint mint_info.data with
  | none => left ; rfl
  | some mint =>
  simp only []
  by_cases h2 : mint.is_initialized = false
  · rw [if_pos h2]
    left
    rfl
  rw [if_neg h2]
  cases hres : resolve_creation_authority mint mint_authority_info.key with
  | none => left ; rfl
  | some matched =>
  simp only []
  by_cases h3 : mint_authority_info.is_signer = false
  · rw [if_pos h3]
    left
    rfl
  rw [if_neg h3]
  by_cases h4 : cmp_pubkeys
      (find_metadata_pda_with_program fpa program_id mint_info.key).1
      metadata_info.key = false
  · rw [if_pos h4]
    left
    rfl
  rw [if_neg h4]
  by_cases h5 : NAME_MAX_LEN < name.length ∨ SYMBOL_MAX_LEN < symbol.length ∨
      IMAGE_MAX_LEN < image.length ∨ DESCRIPTION_MAX_LEN < description.length
  · rw [if_pos h5]
    left
    rfl
  rw [if_neg h5]
  cases hens : ensure_metadata_account payer_info system_program_info metadata_info
      program_id with
  | fail e => left ; rfl
  | ok a2 =>
  simp only []
  rcases ensure_metadata_account_ok hens with ha2 | ⟨hemp, ha2⟩
  · subst ha2
    by_cases h6 : head_nonzero a2.data = true
    · rw [if_pos h6]
      left
      rfl
    rw [if_neg h6]
    cases hp : TokenMetadata.pack_into_slice
        { is_initialized := true, mint := mint_info.key, name := name,
          symbol := symbol, image := image, description := description,
          update_authority := if immutable then none else some matched }
        a2.data.length with
    | none => left ; rfl
    | some buf => right ; rfl
  · subst ha2
    push_neg at h5
    obtain ⟨hn, hs, hi, hd⟩ := h5
    have hmatched : matched = mint_authority_info.key :=
      resolve_creation_authority_eq hres
    obtain ⟨b, hser, hble⟩ := serializeTokenMetadata_exists
      { is_initialized := true, mint := mint_info.key, name := name,
        symbol := symbol, image := image, description := description,
        update_authority := if immutable then none else some matched }
      hmint hn hs hi hd
      (by
        intro p hp
        cases immutable with
        | true => simp at hp
        | false =>
            simp only [if_neg Bool.false_ne_true] at hp
            simp only [Option.some.injEq] at hp
            subst hp
            rw [hmatched]
            exact hauth)
    have hhead : head_nonzero
        (List.replicate TOKEN_METADATA_MAX_LEN 0) = false :=
      head_nonzero_replicate _
    rw [if_neg (by simp [hhead])]
    have hlen : (List.replicate TOKEN_METADATA_MAX_LEN 0).length =
        TOKEN_METADATA_MAX_LEN := List.length_replicate _ _
    have hp : TokenMetadata.pack_into_slice
        { is_initialized := true, mint := mint_info.key, name := name,
          symbol := symbol, image := image, description := description,
          update_authority := if immutable then none else some matched }
        (List.replicate TOKEN_METADATA_MAX_LEN 0).length =
        some (b ++ List.replicate (TOKEN_METADATA_MAX_LEN - b.length) 0) := by
      unfold TokenMetadata.pack_into_slice
      simp only [hser, hlen]
      rw [if_pos hble]
    rw [hp]
    right
    rfl

/-- CreateAttributes either leaves every account unchanged or succeeds,
provided the mint account key is a genuine 32-byte key. -/
theorem create_attributes_cases (fpa : PdaFn) (program_id : Pubkey)
    (payer_info system_program_info mint_info attributes_info
      update_authority_info metadata_info : AccountInfo) (rest : List AccountInfo)
    (data : List (List Nat × List Nat))
    (hmint : mint_info.key.length = 32) :
    (process_create_attributes fpa program_id
        (payer_info :: system_program_info :: mint_info :: attributes_info ::
          update_authority_info :: metadata_info :: rest) data).2 =
      payer_info :: system_program_info :: mint_info :: attributes_info ::
        update_authority_info :: metadata_info :: rest ∨
    (process_create_attributes fpa program_id
        (payer_info :: system_program_info :: mint_info :: attributes_info ::
          update_authority_info :: metadata_info :: rest) data).1 = .ok () := by
  simp only [process_create_attributes]
  by_cases h1 : (payer_info.is_signer && update_authority_info.is_signer) = false
  · rw [if_pos h1]
    left
    rfl
  rw [if_neg h1]
  by_cases h2 : cmp_pubkeys
      (find_attributes_pda_with_program fpa program_id mint_info.key).1
      attributes_info.key = false
  · rw [if_pos h2]
    left
    rfl
  rw [if_neg h2]
  cases hm : TokenMetadata.unpack_from_slice metadata_info.data with
  | none => left ; rfl
  | some metadata =>
  simp only []
  by_cases h3 : (metadata.is_initialized && cmp_pubkeys metadata.mint mint_info.key)
      = false
  · rw [if_pos h3]
    left
    rfl
  rw [if_neg h3]
  cases hu : metadata.update_authority with
  | none => left ; rfl
  | some current_auth =>
  simp only []
  by_cases h4 : cmp_pubkeys current_auth update_authority_info.key = false
  · rw [if_pos h4]
    left
    rfl
  rw [if_neg h4]
  by_cases h5 : MAX_ATTRIBUTES < data.length
  · rw [if_pos h5]
    left
    rfl
  rw [if_neg h5]
  cases hv : validate_attribute_pairs data with
  | some e => left ; rfl
  | none =>
  simp only []
  cases hens : ensure_attributes_account payer_info system_program_info
      attributes_info program_id with
  | fail e => left ; rfl
  | ok a2 =>
  simp only []
  rcases ensure_attributes_account_ok hens with ⟨ha2, hsz⟩ | ⟨hemp, ha2⟩
  · subst ha2
    by_cases h6 : head_nonzero a2.data = true
    · rw [if_pos h6]
      left
      rfl
    rw [if_neg h6]
    cases hp : TokenMetadataAttributes.pack_into_slice
        { is_initialized := true, mint := mint_info.key, data := data }
        a2.data.length with
    | none => left ; rfl
    | some buf => right ; rfl
  · subst ha2
    have hall : ∀ p ∈ data, p.1.length ≤ MAX_KEY_LENGTH ∧
        p.2.length ≤ MAX_VALUE_LENGTH := fun p hp =>
      ⟨(validate_attribute_pairs_bounds hv p hp).2.1,
       (validate_attribute_pairs_bounds hv p hp).2.2.2⟩
    obtain ⟨b, hser, hble⟩ := serializeAttributes_exists
      { is_initialized := true, mint := mint_info.key, data := data }
      hmint (le_of_not_lt h5) hall
    have hhead : head_nonzero
        (List.replicate TOKEN_METADATA_ATTRIBUTES_MAX_LEN 0) = false :=
      head_nonzero_replicate _
    rw [if_neg (by simp [hhead])]
    have hlen : (List.replicate TOKEN_METADATA_ATTRIBUTES_MAX_LEN 0).length =
        TOKEN_METADATA_ATTRIBUTES_MAX_LEN := List.length_replicate _ _
    have hp : TokenMetadataAttributes.pack_into_slice
        { is_initialized := true, mint := mint_info.key, data := data }
        (List.replicate TOKEN_METADATA_ATTRIBUTES_MAX_LEN 0).length =
        some (b ++ List.replicate (TOKEN_METADATA_ATTRIBUTES_MAX_LEN - b.length) 0) := by
      unfold TokenMetadataAttributes.pack_into_slice
      simp only [hser, hlen]
      rw [if_pos hble]
    rw [hp]
    right
    rfl

/-- Inversion of a successful streaming unpack of a TokenMetadata. -/
theorem unpack_md_inv {bs : List Nat} {md : TokenMetadata}
    (h : TokenMetadata.unpack_from_slice bs = some md) :
    ∃ r, deserializeTokenMetadata bs = some (md, r) := by
  unfold TokenMetadata.unpack_from_slice at h
  cases hd : deserializeTokenMetadata bs with
  | none => rw [hd] at h; exact absurd h (by simp)
  | some pr =>
      obtain ⟨v, r⟩ := pr
      rw [hd] at h
      simp only [Option.map_some', Option.some.injEq] at h
      subst h
      exact ⟨r, rfl⟩

/-- Inversion of a successful streaming unpack of a TokenMetadataAttributes. -/
theorem unpack_attrs_inv {bs : List Nat} {a : TokenMetadataAttributes}
    (h : TokenMetadataAttributes.unpack_from_slice bs = some a) :
    ∃ r, deserializeAttributes bs = some (a, r) := by
  unfold TokenMetadataAttributes.unpack_from_slice at h
  cases hd : deserializeAttributes bs with
  | none => rw [hd] at h; exact absurd h (by simp)
  | some pr =>
      obtain ⟨v, r⟩ := pr
      rw [hd] at h
      simp only [Option.map_some', Option.some.injEq] at h
      subst h
      exact ⟨r, rfl⟩

/-- A buffer whose unpack yields an initialized TokenMetadata starts with a
nonzero byte. -/
theorem unpack_md_initialized_head {bs : List Nat} {md : TokenMetadata}
    (h : TokenMetadata.unpack_from_slice bs = some md)
    (hinit : md.is_initialized = true) : head_nonzero bs = true := by
  obtain ⟨r, hr⟩ := unpack_md_inv h
  rw [deserialize_md_first_byte hr, hinit]

/-- CreateMetadata aimed at a metadata account whose buffer already starts
with a nonzero byte (in particular one holding an initialized record) leaves
every account unchanged and cannot succeed. -/
theorem create_metadata_nonzero_target (fpa : PdaFn)
    (unpackMint : List Nat → Option Mint) (program_id : Pubkey)
    (payer_info system_program_info mint_info metadata_info mint_authority_info :
      AccountInfo) (rest : List AccountInfo)
    (name symbol image description : List Nat) (immutable : Bool)
    (hne : head_nonzero metadata_info.data = true) :
    (process_create_metadata fpa unpackMint program_id
        (payer_info :: system_program_info :: mint_info :: metadata_info ::
          mint_authority_info :: rest) name symbol image description immutable).2 =
      payer_info :: system_program_info :: mint_info :: metadata_info ::
        mint_authority_info :: rest ∧
    (process_create_metadata fpa unpackMint program_id
        (payer_info :: system_program_info :: mint_info :: metadata_info ::
          mint_authority_info :: rest) name symbol image description immutable).1 ≠
      .ok () := by
  simp only [process_create_metadata]
  by_cases h1 : mint_info.owner ≠ apl_token_id
  · rw [if_pos h1]
    exact ⟨rfl, by simp⟩
  rw [if_neg h1]
  cases hm : unpackMint mint_info.data with
  | none => exact ⟨rfl, by simp⟩
  | some mint =>
  simp only []
  by_cases h2 : mint.is_initialized = false
  · rw [if_pos h2]
    exact ⟨rfl, by simp⟩
  rw [if_neg h2]
  cases hres : resolve_creation_authority mint mint_authority_info.key with
  | none => exact ⟨rfl, by simp⟩
  | some matched =>
  simp only []
  by_cases h3 : mint_authority_info.is_signer = false
  · rw [if_pos h3]
    exact ⟨rfl, by simp⟩
  rw [if_neg h3]
  by_cases h4 : cmp_pubkeys
      (find_metadata_pda_with_program fpa program_id mint_info.key).1
      metadata_info.key = false
  · rw [if_pos h4]
    exact ⟨rfl, by simp⟩
  rw [if_neg h4]
  by_cases h5 : NAME_MAX_LEN < name.length ∨ SYMBOL_MAX_LEN < symbol.length ∨
      IMAGE_MAX_LEN < image.length ∨ DESCRIPTION_MAX_LEN < description.length
  · rw [if_pos h5]
    exact ⟨rfl, by simp⟩
  rw [if_neg h5]
  cases hens : ensure_metadata_account payer_info system_program_info metadata_info
      program_id with
  | fail e => exact ⟨rfl, by simp⟩
  | ok a2 =>
  simp only []
  rcases ensure_metadata_account_ok hens with ha2 | ⟨hemp, ha2⟩
  · subst ha2
    rw [if_pos hne]
    exact ⟨rfl, by simp⟩
  · rw [hemp] at hne
    exact absurd hne (by simp [head_nonzero])

/-- CreateAttributes aimed at an attributes account whose buffer already
starts with a nonzero byte leaves every account unchanged and cannot
succeed. -/
theorem create_attributes_nonzero_target (fpa : PdaFn) (program_id : Pubkey)
    (payer_info system_program_info mint_info attributes_info
      update_authority_info metadata_info : AccountInfo) (rest : List AccountInfo)
    (data : List (List Nat × List Nat))
    (hne : head_nonzero attributes_info.data = true) :
    (process_create_attributes fpa program_id
        (payer_info :: system_program_info :: mint_info :: attributes_info ::
          update_authority_info :: metadata_info :: rest) data).2 =
      payer_info :: system_program_info :: mint_info :: attributes_info ::
        update_authority_info :: metadata_info :: rest ∧
    (process_create_attributes fpa program_id
        (payer_info :: system_program_info :: mint_info :: attributes_info ::
          update_authority_info :: metadata_info :: rest) data).1 ≠ .ok () := by
  simp only [process_create_attributes]
  by_cases h1 : (payer_info.is_signer && update_authority_info.is_signer) = false
  · rw [if_pos h1]
    exact ⟨rfl, by simp⟩
  rw [if_neg h1]
  by_cases h2 : cmp_pubkeys
      (find_attributes_pda_with_program fpa program_id mint_info.key).1
      attributes_info.key = false
  · rw [if_pos h2]
    exact ⟨rfl, by simp⟩
  rw [if_neg h2]
  cases hm : TokenMetadata.unpack_from_slice metadata_info.data with
  | none => exact ⟨rfl, by simp⟩
  | some metadata =>
  simp only []
  by_cases h3 : (metadata.is_initialized && cmp_pubkeys metadata.mint mint_info.key)
      = false
  · rw [if_pos h3]
    exact ⟨rfl, by simp⟩
  rw [if_neg h3]
  cases hu : metadata.update_authority with
  | none => exact ⟨rfl, by simp⟩
  | some current_auth =>
  simp only []
  by_cases h4 : cmp_pubkeys current_auth update_authority_info.key = false
  · rw [if_pos h4]
    exact ⟨rfl, by simp⟩
  rw [if_neg h4]
  by_cases h5 : MAX_ATTRIBUTES < data.length
  · rw [if_pos h5]
    exact ⟨rfl, by simp⟩
  rw [if_neg h5]
  cases hv : validate_attribute_pairs data with
  | some e => exact ⟨rfl, by simp⟩
  | none =>
  simp only []
  cases hens : ensure_attributes_account payer_info system_program_info
      attributes_info program_id with
  | fail e => exact ⟨rfl, by simp⟩
  | ok a2 =>
  simp only []
  rcases ensure_attributes_account_ok hens with ⟨ha2, hsz⟩ | ⟨hemp, ha2⟩
  · subst ha2
    rw [if_pos hne]
    exact ⟨rfl, by simp⟩
  · rw [hemp] at hne
    exact absurd hne (by simp [head_nonzero])

/-- Unfolding of TokenMetadata validity into its component bounds. -/
theorem TokenMetadata_isValid_spec {md : TokenMetadata} (h : md.isValid = true) :
    md.mint.length = 32 ∧ (∀ p, md.update_authority = some p → p.length = 32) ∧
    md.name.length ≤ NAME_MAX_LEN ∧ md.symbol.length ≤ SYMBOL_MAX_LEN ∧
    md.image.length ≤ IMAGE_MAX_LEN ∧
    md.description.length ≤ DESCRIPTION_MAX_LEN := by
  unfold TokenMetadata.isValid at h
  simp only [Bool.and_eq_true, beq_iff_eq, decide_eq_true_eq] at h
  obtain ⟨⟨⟨⟨⟨hm, hu⟩, hn⟩, hs⟩, hi⟩, hd⟩ := h
  refine ⟨hm, ?_, hn, hs, hi, hd⟩
  intro p hp
  rw [hp] at hu
  simpa using hu

/-- Unfolding of TokenMetadataAttributes validity into its component bounds. -/
theorem TokenMetadataAttributes_isValid_spec {a : TokenMetadataAttributes}
    (h : a.isValid = true) :
    a.mint.length = 32 ∧ a.data.length ≤ MAX_ATTRIBUTES ∧
      ∀ p ∈ a.data, p.1.length ≤ MAX_KEY_LENGTH ∧ p.2.length ≤ MAX_VALUE_LENGTH := by
  unfold TokenMetadataAttributes.isValid at h
  simp only [Bool.and_eq_true, beq_iff_eq, decide_eq_true_eq,
    List.all_eq_true] at h
  obtain ⟨⟨hm, hc⟩, hall⟩ := h
  exact ⟨hm, hc, fun p hp => by simpa using hall p hp⟩

/-- A buffer whose unpack yields an initialized TokenMetadataAttributes
starts with a nonzero byte. -/
theorem unpack_attrs_initialized_head {bs : List Nat} {a : TokenMetadataAttributes}
    (h : TokenMetadataAttributes.unpack_from_slice bs = some a)
    (hinit : a.is_initialized = true) : head_nonzero bs = true := by
  obtain ⟨r, hr⟩ := unpack_attrs_inv h
  obtain ⟨bs1, _, h1, -⟩ := deserializeAttributes_inv hr
  rw [readBool_shape h1, hinit]
  simp [head_nonzero]

/-- C10: instruction wire-codec round-trip. For every MetadataInstruction
value whose borsh packing succeeds (as it always does for real Rust values,
where every length fits in a u32), unpacking the packed bytes returns Ok of
exactly that instruction, for each of the six variants with any payload. -/
theorem c10_instruction_wire_roundtrip (i : MetadataInstruction) (b : List Nat)
    (h : MetadataInstruction.pack i = some b) :
    MetadataInstruction.unpack b = .ok i := by
  have hd := deserialize_serialize_instr (i := i) (b := b) h []
  rw [List.append_nil] at hd
  unfold MetadataInstruction.unpack
  rw [hd]

/-- Witness for C10 at a concrete instruction with a nontrivial payload. -/
theorem c10_instruction_wire_roundtrip_witness :
    MetadataInstruction.pack
        (.CreateAttributes [([75], [86])]) =
      some [2, 1, 0, 0, 0, 1, 0, 0, 0, 75, 1, 0, 0, 0, 86] ∧
    MetadataInstruction.unpack [2, 1, 0, 0, 0, 1, 0, 0, 0, 75, 1, 0, 0, 0, 86] =
      .ok (.CreateAttributes [([75], [86])]) :=
  ⟨by decide, c10_instruction_wire_roundtrip _ _ (by decide)⟩

/-- C5: record codec round-trip. For every valid TokenMetadata and
TokenMetadataAttributes record, serialization succeeds within the account
maximum, packing zero-fills the remainder of the max-size buffer, and
unpacking recovers exactly the record even with any number of trailing zero
bytes appended to the serialized form. -/
theorem c5_record_codec_roundtrip (md : TokenMetadata) (a : TokenMetadataAttributes)
    (hmd : md.isValid = true) (ha : a.isValid = true) :
    (∃ b, serializeTokenMetadata md = some b ∧
       b.length ≤ TOKEN_METADATA_MAX_LEN ∧
       TokenMetadata.pack_into_slice md TOKEN_METADATA_MAX_LEN =
         some (b ++ List.replicate (TOKEN_METADATA_MAX_LEN - b.length) 0) ∧
       ∀ k, TokenMetadata.unpack_from_slice (b ++ List.replicate k 0) = some md) ∧
    (∃ b, serializeAttributes a = some b ∧
       b.length ≤ TOKEN_METADATA_ATTRIBUTES_MAX_LEN ∧
       TokenMetadataAttributes.pack_into_slice a TOKEN_METADATA_ATTRIBUTES_MAX_LEN =
         some (b ++ List.replicate (TOKEN_METADATA_ATTRIBUTES_MAX_LEN - b.length) 0) ∧
       ∀ k, TokenMetadataAttributes.unpack_from_slice (b ++ List.replicate k 0) =
         some a) := by
  obtain ⟨hm1, hm6, hm2, hm3, hm4, hm5⟩ := TokenMetadata_isValid_spec hmd
  obtain ⟨ha1, ha2, hall⟩ := TokenMetadataAttributes_isValid_spec ha
  obtain ⟨b, hser, hble⟩ := serializeTokenMetadata_exists md hm1 hm2 hm3 hm4 hm5 hm6
  obtain ⟨c, hserA, hbleA⟩ := serializeAttributes_exists a ha1 ha2 hall
  refine ⟨⟨b, hser, hble, ?_, ?_⟩, ⟨c, hserA, hbleA, ?_, ?_⟩⟩
  · unfold TokenMetadata.pack_into_slice
    simp only [hser]
    rw [if_pos hble]
  · intro k
    unfold TokenMetadata.unpack_from_slice
    rw [deserialize_serialize_md hser]
    rfl
  · unfold TokenMetadataAttributes.pack_into_slice
    simp only [hserA]
    rw [if_pos hbleA]
  · intro k
    unfold TokenMetadataAttributes.unpack_from_slice
    rw [deserialize_serialize_attrs hserA]
    rfl

/-- Witness for C5 at concrete records. -/
theorem c5_record_codec_roundtrip_witness :
    TokenMetadata.isValid
      { is_initialized := true, mint := List.replicate 32 4, name := [65],
        symbol := [66], image := [67], description := [68],
        update_authority := some (List.replicate 32 7) } = true ∧
    TokenMetadataAttributes.isValid
      { is_initialized := true, mint := List.replicate 32 4,
        data := [([75], [86])] } = true ∧
    ((∃ b, serializeTokenMetadata
        { is_initialized := true, mint := List.replicate 32 4, name := [65],
          symbol := [66], image := [67], description := [68],
          update_authority := some (List.replicate 32 7) } = some b ∧
       b.length ≤ TOKEN_METADATA_MAX_LEN ∧
       TokenMetadata.pack_into_slice
         { is_initialized := true, mint := List.replicate 32 4, name := [65],
           symbol := [66], image := [67], description := [68],
           update_authority := some (List.replicate 32 7) }
         TOKEN_METADATA_MAX_LEN =
         some (b ++ List.replicate (TOKEN_METADATA_MAX_LEN - b.length) 0) ∧
       ∀ k, TokenMetadata.unpack_from_slice (b ++ List.replicate k 0) =
         some { is_initialized := true, mint := List.replicate 32 4, name := [65],
                symbol := [66], image := [67], description := [68],
                update_authority := some (List.replicate 32 7) }) ∧
     (∃ b, serializeAttributes
        { is_initialized := true, mint := List.replicate 32 4,
          data := [([75], [86])] } = some b ∧
       b.length ≤ TOKEN_METADATA_ATTRIBUTES_MAX_LEN ∧
       TokenMetadataAttributes.pack_into_slice
         { is_initialized := true, mint := List.replicate 32 4,
           data := [([75], [86])] } TOKEN_METADATA_ATTRIBUTES_MAX_LEN =
         some (b ++ List.replicate (TOKEN_METADATA_ATTRIBUTES_MAX_LEN - b.length) 0) ∧
       ∀ k, TokenMetadataAttributes.unpack_from_slice (b ++ List.replicate k 0) =
         some { is_initialized := true, mint := List.replicate 32 4,
                data := [([75], [86])] })) :=
  ⟨by decide, by decide, c5_record_codec_roundtrip _ _ (by decide) (by decide)⟩

/-- C1: immutability is terminal. On every initialized TokenMetadata record
whose update_authority is None, UpdateMetadata, TransferAuthority,
MakeImmutable, ReplaceAttributes and CreateAttributes all fail with
InvalidAuthority and leave every account unchanged; and neither create
handler can write over an account already holding an initialized record, so
no operation ever turns update_authority from None back to Some. -/
theorem c1_immutability_terminal :
    (∀ (metadata_info update_authority_info : AccountInfo)
       (rest : List AccountInfo) (md : TokenMetadata)
       (name symbol image description : Option (List Nat)),
       update_authority_info.is_signer = true →
       TokenMetadata.unpack_from_slice metadata_info.data = some md →
       md.is_initialized = true →
       md.update_authority = none →
       process_update_metadata (metadata_info :: update_authority_info :: rest)
           name symbol image description =
         (.fail (MetadataError.InvalidAuthority.toProgramError),
          metadata_info :: update_authority_info :: rest)) ∧
    (∀ (metadata_info current_authority_info : AccountInfo)
       (rest : List AccountInfo) (md : TokenMetadata) (new_authority : Pubkey),
       current_authority_info.is_signer = true →
       TokenMetadata.unpack_from_slice metadata_info.data = some md →
       md.is_initialized = true →
       md.update_authority = none →
       process_transfer_authority (metadata_info :: current_authority_info :: rest)
           new_authority =
         (.fail (MetadataError.InvalidAuthority.toProgramError),
          metadata_info :: current_authority_info :: rest)) ∧
    (∀ (metadata_info current_authority_info : AccountInfo)
       (rest : List AccountInfo) (md : TokenMetadata),
       current_authority_info.is_signer = true →
       TokenMetadata.unpack_from_slice metadata_info.data = some md →
       md.is_initialized = true →
       md.update_authority = none →
       process_make_immutable (metadata_info :: current_authority_info :: rest) =
         (.fail (MetadataError.InvalidAuthority.toProgramError),
          metadata_info :: current_authority_info :: rest)) ∧
    (∀ (fpa : PdaFn) (program_id : Pubkey)
       (attributes_info update_authority_info metadata_info : AccountInfo)
       (rest : List AccountInfo) (md : TokenMetadata)
       (data : List (List Nat × List Nat)),
       update_authority_info.is_signer = true →
       TokenMetadata.unpack_from_slice metadata_info.data = some md →
       md.is_initialized = true →
       md.update_authority = none →
       process_replace_attributes fpa program_id
           (attributes_info :: update_authority_info :: metadata_info :: rest)
           data =
         (.fail (MetadataError.InvalidAuthority.toProgramError),
          attributes_info :: update_authority_info :: metadata_info :: rest)) ∧
    (∀ (fpa : PdaFn) (program_id : Pubkey)
       (payer_info system_program_info mint_info attributes_info
         update_authority_info metadata_info : AccountInfo)
       (rest : List AccountInfo) (md : TokenMetadata)
       (data : List (List Nat × List Nat)),
       payer_info.is_signer = true →
       update_authority_info.is_signer = true →
       cmp_pubkeys
         (find_attributes_pda_with_program fpa program_id mint_info.key).1
         attributes_info.key = true →
       TokenMetadata.unpack_from_slice metadata_info.data = some md →
       md.is_initialized = true →
       cmp_pubkeys md.mint mint_info.key = true →
       md.update_authority = none →
       process_create_attributes fpa program_id
           (payer_info :: system_program_info :: mint_info :: attributes_info ::
             update_authority_info :: metadata_info :: rest) data =
         (.fail (MetadataError.InvalidAuthority.toProgramError),
          payer_info :: system_program_info :: mint_info :: attributes_info ::
            update_authority_info :: metadata_info :: rest)) ∧
    (∀ (fpa : PdaFn) (unpackMint : List Nat → Option Mint) (program_id : Pubkey)
       (payer_info system_program_info mint_info metadata_info
         mint_authority_info : AccountInfo) (rest : List AccountInfo)
       (name symbol image description : List Nat) (immutable : Bool)
       (md : TokenMetadata),
       TokenMetadata.unpack_from_slice metadata_info.data = some md →
       md.is_initialized = true →
       (process_create_metadata fpa unpackMint program_id
           (payer_info :: system_program_info :: mint_info :: metadata_info ::
             mint_authority_info :: rest) name symbol image description
           immutable).2 =
         payer_info :: system_program_info :: mint_info :: metadata_info ::
           mint_authority_info :: rest ∧
       (process_create_metadata fpa unpackMint program_id
           (payer_info :: system_program_info :: mint_info :: metadata_info ::
             mint_authority_info :: rest) name symbol image description
           immutable).1 ≠ .ok ()) ∧
    (∀ (fpa : PdaFn) (program_id : Pubkey)
       (payer_info system_program_info mint_info attributes_info
         update_authority_info metadata_info : AccountInfo)
       (rest : List AccountInfo) (data : List (List Nat × List Nat))
       (a : TokenMetadataAttributes),
       TokenMetadataAttributes.unpack_from_slice attributes_info.data = some a →
       a.is_initialized = true →
       (process_create_attributes fpa program_id
           (payer_info :: system_program_info :: mint_info :: attributes_info ::
             update_authority_info :: metadata_info :: rest) data).2 =
         payer_info :: system_program_info :: mint_info :: attributes_info ::
           update_authority_info :: metadata_info :: rest ∧
       (process_create_attributes fpa program_id
           (payer_info :: system_program_info :: mint_info :: attributes_info ::
             update_authority_info :: metadata_info :: rest) data).1 ≠ .ok ()) := by
  refine ⟨?_, ?_, ?_, ?_, ?_, ?_, ?_⟩
  · intro metadata_info update_authority_info rest md name symbol image description
      hs hu hinit hnone
    simp [process_update_metadata, hs, hu, hinit, hnone]
  · intro metadata_info current_authority_info rest md new_authority hs hu hinit hnone
    simp [process_transfer_authority, hs, hu, hinit, hnone]
  · intro metadata_info current_authority_info rest md hs hu hinit hnone
    simp [process_make_immutable, hs, hu, hinit, hnone]
  · intro fpa program_id attributes_info update_authority_info metadata_info rest
      md data hs hu hinit hnone
    simp [process_replace_attributes, hs, hu, hinit, hnone]
  · intro fpa program_id payer_info system_program_info mint_info attributes_info
      update_authority_info metadata_info rest md data hp hs hpda hu hinit hm hnone
    simp [process_create_attributes, hp, hs, hpda, hu, hinit, hm, hnone]
  · intro fpa unpackMint program_id payer_info system_program_info mint_info
      metadata_info mint_authority_info rest name symbol image description
      immutable md hu hinit
    exact create_metadata_nonzero_target fpa unpackMint program_id payer_info
      system_program_info mint_info metadata_info mint_authority_info rest
      name symbol image description immutable
      (unpack_md_initialized_head hu hinit)
  · intro fpa program_id payer_info system_program_info mint_info attributes_info
      update_authority_info metadata_info rest data a hu hinit
    exact create_attributes_nonzero_target fpa program_id payer_info
      system_program_info mint_info attributes_info update_authority_info
      metadata_info rest data (unpack_attrs_initialized_head hu hinit)

/-- Witness for C1 at a concrete immutable record: MakeImmutable on it fails
with InvalidAuthority leaving accounts unchanged, and CreateMetadata aimed
at the account holding it cannot succeed and leaves accounts unchanged. -/
theorem c1_immutability_terminal_witness :
    process_make_immutable [sampleMdAccount, sampleAuthAccount] =
      (.fail (MetadataError.InvalidAuthority.toProgramError),
       [sampleMdAccount, sampleAuthAccount]) ∧
    ((process_create_metadata samplePda (fun _ => none) (samplePk 3)
        [sampleAuthAccount, sampleAuthAccount, sampleAuthAccount,
         sampleMdAccount, sampleAuthAccount] [65] [66] [67] [68] false).2 =
      [sampleAuthAccount, sampleAuthAccount, sampleAuthAccount,
       sampleMdAccount, sampleAuthAccount] ∧
     (process_create_metadata samplePda (fun _ => none) (samplePk 3)
        [sampleAuthAccount, sampleAuthAccount, sampleAuthAccount,
         sampleMdAccount, sampleAuthAccount] [65] [66] [67] [68] false).1 ≠
       .ok ()) :=
  ⟨(c1_immutability_terminal).2.2.1 sampleMdAccount sampleAuthAccount []
      sampleImmutableMd (by decide) (by decide) (by decide) (by decide),
   (c1_immutability_terminal).2.2.2.2.2.1 samplePda (fun _ => none) (samplePk 3)
      sampleAuthAccount sampleAuthAccount sampleAuthAccount sampleMdAccount
      sampleAuthAccount [] [65] [66] [67] [68] false sampleImmutableMd
      (by decide) (by decide)⟩

/-- C2: creation authority resolution. With a valid owned and initialized
mint: a present mint authority must equal the supplied authority key and the
authority must sign, else InvalidAuthority; with no mint authority the
freeze authority is used the same way; with neither the call fails with
InvalidAuthority; and on the successful creation path the stored
update_authority is none when immutable and some matched authority (the
supplied authority key) otherwise. -/
theorem c2_creation_authority_resolution :
    (∀ (fpa : PdaFn) (unpackMint : List Nat → Option Mint) (program_id : Pubkey)
       (payer_info system_program_info mint_info metadata_info
         mint_authority_info : AccountInfo) (rest : List AccountInfo)
       (name symbol image description : List Nat) (immutable : Bool)
       (mint : Mint) (A : Pubkey),
       mint_info.owner = apl_token_id →
       unpackMint mint_info.data = some mint →
       mint.is_initialized = true →
       mint.mint_authority = some A →
       cmp_pubkeys A mint_authority_info.key = false →
       process_create_metadata fpa unpackMint program_id
           (payer_info :: system_program_info :: mint_info :: metadata_info ::
             mint_authority_info :: rest) name symbol image description immutable =
         (.fail (MetadataError.InvalidAuthority.toProgramError),
          payer_info :: system_program_info :: mint_info :: metadata_info ::
            mint_authority_info :: rest)) ∧
    (∀ (fpa : PdaFn) (unpackMint : List Nat → Option Mint) (program_id : Pubkey)
       (payer_info system_program_info mint_info metadata_info
         mint_authority_info : AccountInfo) (rest : List AccountInfo)
       (name symbol image description : List Nat) (immutable : Bool)
       (mint : Mint) (A : Pubkey),
       mint_info.owner = apl_token_id →
       unpackMint mint_info.data = some mint →
       mint.is_initialized = true →
       mint.mint_authority = some A →
       cmp_pubkeys A mint_authority_info.key = true →
       mint_authority_info.is_signer = false →
       process_create_metadata fpa unpackMint program_id
           (payer_info :: system_program_info :: mint_info :: metadata_info ::
             mint_authority_info :: rest) name symbol image description immutable =
         (.fail (MetadataError.InvalidAuthority.toProgramError),
          payer_info :: system_program_info :: mint_info :: metadata_info ::
            mint_authority_info :: rest)) ∧
    (∀ (fpa : PdaFn) (unpackMint : List Nat → Option Mint) (program_id : Pubkey)
       (payer_info system_program_info mint_info metadata_info
         mint_authority_info : AccountInfo) (rest : List AccountInfo)
       (name symbol image description : List Nat) (immutable : Bool)
       (mint : Mint) (F : Pubkey),
       mint_info.owner = apl_token_id →
       unpackMint mint_info.data = some mint →
       mint.is_initialized = true →
       mint.mint_authority = none →
       mint.freeze_authority = some F →
       cmp_pubkeys F mint_authority_info.key = false →
       process_create_metadata fpa unpackMint program_id
           (payer_info :: system_program_info :: mint_info :: metadata_info ::
             mint_authority_info :: rest) name symbol image description immutable =
         (.fail (MetadataError.InvalidAuthority.toProgramError),
          payer_info :: system_program_info :: mint_info :: metadata_info ::
            mint_authority_info :: rest)) ∧
    (∀ (fpa : PdaFn) (unpackMint : List Nat → Option Mint) (program_id : Pubkey)
       (payer_info system_program_info mint_info metadata_info
         mint_authority_info : AccountInfo) (rest : List AccountInfo)
       (name symbol image description : List Nat) (immutable : Bool)
       (mint : Mint) (F : Pubkey),
       mint_info.owner = apl_token_id →
       unpackMint mint_info.data = some mint →
       mint.is_initialized = true →
       mint.mint_authority = none →
       mint.freeze_authority = some F →
       cmp_pubkeys F mint_authority_info.key = true →
       mint_authority_info.is_signer = false →
       process_create_metadata fpa unpackMint program_id
           (payer_info :: system_program_info :: mint_info :: metadata_info ::
             mint_authority_info :: rest) name symbol image description immutable =
         (.fail (MetadataError.InvalidAuthority.toProgramError),
          payer_info :: system_program_info :: mint_info :: metadata_info ::
            mint_authority_info :: rest)) ∧
    (∀ (fpa : PdaFn) (unpackMint : List Nat → Option Mint) (program_id : Pubkey)
       (payer_info system_program_info mint_info metadata_info
         mint_authority_info : AccountInfo) (rest : List AccountInfo)
       (name symbol image description : List Nat) (immutable : Bool)
       (mint : Mint),
       mint_info.owner = apl_token_id →
       unpackMint mint_info.data = some mint →
       mint.is_initialized = true →
       mint.mint_authority = none →
       mint.freeze_authority = none →
       process_create_metadata fpa unpackMint program_id
           (payer_info :: system_program_info :: mint_info :: metadata_info ::
             mint_authority_info :: rest) name symbol image description immutable =
         (.fail (MetadataError.InvalidAuthority.toProgramError),
          payer_info :: system_program_info :: mint_info :: metadata_info ::
            mint_authority_info :: rest)) ∧
    (∀ (fpa : PdaFn) (unpackMint : List Nat → Option Mint) (program_id : Pubkey)
       (payer_info system_program_info mint_info metadata_info
         mint_authority_info : AccountInfo) (rest : List AccountInfo)
       (name symbol image description : List Nat) (immutable : Bool)
       (mint : Mint) (matched : Pubkey),
       mint_info.owner = apl_token_id →
       unpackMint mint_info.data = some mint →
       mint.is_initialized = true →
       resolve_creation_authority mint mint_authority_info.key = some matched →
       mint_authority_info.is_signer = true →
       cmp_pubkeys (find_metadata_pda_with_program fpa program_id mint_info.key).1
         metadata_info.key = true →
       ¬(NAME_MAX_LEN < name.length ∨ SYMBOL_MAX_LEN < symbol.length ∨
         IMAGE_MAX_LEN < image.length ∨ DESCRIPTION_MAX_LEN < description.length) →
       metadata_info.owner ≠ program_id →
       system_program_info.key = system_program_id →
       payer_info.is_signer = true →
       metadata_info.data = [] →
       mint_info.key.length = 32 →
       mint_authority_info.key.length = 32 →
       ∃ buf,
         process_create_metadata fpa unpackMint program_id
             (payer_info :: system_program_info :: mint_info :: metadata_info ::
               mint_authority_info :: rest) name symbol image description
             immutable =
           (.ok (), payer_info :: system_program_info :: mint_info ::
             { metadata_info with owner := program_id, data := buf } ::
             mint_authority_info :: rest) ∧
         TokenMetadata.unpack_from_slice buf =
           some { is_initialized := true, mint := mint_info.key, name := name,
                  symbol := symbol, image := image, description := description,
                  update_authority :=
                    if immutable then none else some mint_authority_info.key }) := by
  refine ⟨?_, ?_, ?_, ?_, ?_, ?_⟩
  · intro fpa unpackMint program_id payer_info system_program_info mint_info
      metadata_info mint_authority_info rest name symbol image description
      immutable mint A howner hm hinit ha hcmp
    simp [process_create_metadata, resolve_creation_authority, howner, hm, hinit,
      ha, hcmp]
  · intro fpa unpackMint program_id payer_info system_program_info mint_info
      metadata_info mint_authority_info rest name symbol image description
      immutable mint A howner hm hinit ha hcmp hsig
    simp [process_create_metadata, resolve_creation_authority, howner, hm, hinit,
      ha, hcmp, hsig]
  · intro fpa unpackMint program_id payer_info system_program_info mint_info
      metadata_info mint_authority_info rest name symbol image description
      immutable mint F howner hm hinit ha hf hcmp
    simp [process_create_metadata, resolve_creation_authority, howner, hm, hinit,
      ha, hf, hcmp]
  · intro fpa unpackMint program_id payer_info system_program_info mint_info
      metadata_info mint_authority_info rest name symbol image description
      immutable mint F howner hm hinit ha hf hcmp hsig
    simp [process_create_metadata, resolve_creation_authority, howner, hm, hinit,
      ha, hf, hcmp, hsig]
  · intro fpa unpackMint program_id payer_info system_program_info mint_info
      metadata_info mint_authority_info rest name symbol image description
      immutable mint howner hm hinit ha hf
    simp [process_create_metadata, resolve_creation_authority, howner, hm, hinit,
      ha, hf]
  · intro fpa unpackMint program_id payer_info system_program_info mint_info
      metadata_info mint_authority_info rest name symbol image description
      immutable mint matched howner hm hinit hres hsig hpda hsize hown hsys
      hpayer hdata hmint32 hauth32
    have hmatched : matched = mint_authority_info.key :=
      resolve_creation_authority_eq hres
    push_neg at hsize
    obtain ⟨hn, hs, hi, hd⟩ := hsize
    obtain ⟨b, hser, hble⟩ := serializeTokenMetadata_exists
      { is_initialized := true, mint := mint_info.key, name := name,
        symbol := symbol, image := image, description := description,
        update_authority := if immutable then none else some matched }
      hmint32 hn hs hi hd
      (by
        intro p hp
        cases immutable with
        | true => simp at hp
        | false =>
            simp only [if_neg Bool.false_ne_true, Option.some.injEq] at hp
            subst hp
            rw [hmatched]
            exact hauth32)
    have hens : ensure_metadata_account payer_info system_program_info
        metadata_info program_id =
        .ok { metadata_info with
              owner := program_id,
              data := List.replicate TOKEN_METADATA_MAX_LEN 0 } := by
      unfold ensure_metadata_account
      rw [if_pos hown, if_neg (by simp [hsys]), if_neg (by simp [hpayer])]
      unfold cpi_create_account
      rw [if_pos (by simp [hdata])]
    refine ⟨b ++ List.replicate (TOKEN_METADATA_MAX_LEN - b.length) 0, ?_, ?_⟩
    · simp only [process_create_metadata]
      rw [if_neg (by simp [howner])]
      simp only [hm]
      rw [if_neg (by simp [hinit])]
      simp only [hres]
      rw [if_neg (by simp [hsig]), if_neg (by simp [hpda]),
        if_neg (by push_neg ; exact ⟨hn, hs, hi, hd⟩)]
      simp only [hens]
      rw [if_neg (by simp [head_nonzero_replicate])]
      have hp : TokenMetadata.pack_into_slice
          { is_initialized := true, mint := mint_info.key, name := name,
            symbol := symbol, image := image, description := description,
            update_authority := if immutable then none else some matched }
          (List.replicate TOKEN_METADATA_MAX_LEN 0).length =
          some (b ++ List.replicate (TOKEN_METADATA_MAX_LEN - b.length) 0) := by
        unfold TokenMetadata.pack_into_slice
        simp only [hser, List.length_replicate]
        rw [if_pos hble]
      rw [hp]
    · rw [← hmatched]
      unfold TokenMetadata.unpack_from_slice
      rw [deserialize_serialize_md hser]
      rfl

/-- Witness for C2 at concrete inputs: a mismatched mint authority fails with
InvalidAuthority, and a matching signing mint authority creates the record
with update_authority equal to the matched authority. -/
theorem c2_creation_authority_resolution_witness :
    process_create_metadata samplePda sampleUnpackMint (samplePk 5)
        [sampleAuthAccount, sampleSysAccount, sampleMintAccount,
         sampleFreshMdAccount,
         { key := samplePk 8, owner := samplePk 0, is_signer := true, data := [] }]
        [65] [66] [67] [68] false =
      (.fail (MetadataError.InvalidAuthority.toProgramError),
       [sampleAuthAccount, sampleSysAccount, sampleMintAccount,
        sampleFreshMdAccount,
        { key := samplePk 8, owner := samplePk 0, is_signer := true, data := [] }]) ∧
    ((process_create_metadata samplePda sampleUnpackMint (samplePk 5)
        [sampleAuthAccount, sampleSysAccount, sampleMintAccount,
         sampleFreshMdAccount, sampleAuthAccount] [65] [66] [67] [68] false).1 =
      .ok () ∧
     TokenMetadata.unpack_from_slice
       ((((process_create_metadata samplePda sampleUnpackMint (samplePk 5)
            [sampleAuthAccount, sampleSysAccount, sampleMintAccount,
             sampleFreshMdAccount, sampleAuthAccount]
            [65] [66] [67] [68] false).2).getD 3 sampleAuthAccount).data) =
       some { is_initialized := true, mint := samplePk 4, name := [65],
              symbol := [66], image := [67], description := [68],
              update_authority := some (samplePk 7) }) := by
  constructor
  · exact c2_creation_authority_resolution.1 samplePda sampleUnpackMint
      (samplePk 5) sampleAuthAccount sampleSysAccount sampleMintAccount
      sampleFreshMdAccount
      { key := samplePk 8, owner := samplePk 0, is_signer := true, data := [] }
      [] [65] [66] [67] [68] false sampleMint (samplePk 7)
      (by decide) rfl (by decide) (by decide) (by decide)
  · obtain ⟨buf, hres, hunp⟩ :=
      c2_creation_authority_resolution.2.2.2.2.2 samplePda sampleUnpackMint
        (samplePk 5) sampleAuthAccount sampleSysAccount sampleMintAccount
        sampleFreshMdAccount sampleAuthAccount [] [65] [66] [67] [68] false
        sampleMint (samplePk 7) (by decide) rfl (by decide) (by decide)
        (by decide) (by decide) (by decide) (by decide) (by decide) (by decide)
        (by decide) (by decide) (by decide)
    constructor
    · rw [hres]
    · rw [hres]
      exact hunp

/-- C3: atomicity on failure. Any invocation of the entry point that returns
an error leaves every passed account byte-for-byte unchanged (given genuine
32-byte account keys, as every Rust Pubkey is); and in particular a second
CreateMetadata for a mint whose metadata record is already initialized fails
with MetadataAlreadyExists and changes nothing. -/
theorem c3_atomicity_on_failure :
    (∀ (fpa : PdaFn) (unpackMint : List Nat → Option Mint) (program_id : Pubkey)
       (accounts : List AccountInfo) (instruction_data : List Nat)
       (e : ProgramError),
       (∀ a ∈ accounts, a.key.length = 32) →
       (process fpa unpackMint program_id accounts instruction_data).1 = .fail e →
       (process fpa unpackMint program_id accounts instruction_data).2 = accounts) ∧
    (∀ (fpa : PdaFn) (unpackMint : List Nat → Option Mint) (program_id : Pubkey)
       (payer_info system_program_info mint_info metadata_info
         mint_authority_info : AccountInfo) (rest : List AccountInfo)
       (name symbol image description : List Nat) (immutable : Bool)
       (mint : Mint) (matched : Pubkey) (md : TokenMetadata),
       mint_info.owner = apl_token_id →
       unpackMint mint_info.data = some mint →
       mint.is_initialized = true →
       resolve_creation_authority mint mint_authority_info.key = some matched →
       mint_authority_info.is_signer = true →
       cmp_pubkeys (find_metadata_pda_with_program fpa program_id mint_info.key).1
         metadata_info.key = true →
       ¬(NAME_MAX_LEN < name.length ∨ SYMBOL_MAX_LEN < symbol.length ∨
         IMAGE_MAX_LEN < image.length ∨ DESCRIPTION_MAX_LEN < description.length) →
       metadata_info.owner = program_id →
       TokenMetadata.unpack_from_slice metadata_info.data = some md →
       md.is_initialized = true →
       process_create_metadata fpa unpackMint program_id
           (payer_info :: system_program_info :: mint_info :: metadata_info ::
             mint_authority_info :: rest) name symbol image description immutable =
         (.fail (MetadataError.MetadataAlreadyExists.toProgramError),
          payer_info :: system_program_info :: mint_info :: metadata_info ::
            mint_authority_info :: rest)) := by
  constructor
  · intro fpa unpackMint program_id accounts instruction_data e hkeys h
    unfold process at h ⊢
    cases hu : MetadataInstruction.unpack instruction_data with
    | fail e2 => rfl
    | ok instr =>
      rw [hu] at h
      replace h : (process_decoded fpa unpackMint program_id accounts instr).1 =
        .fail e := h
      show (process_decoded fpa unpackMint program_id accounts instr).2 = accounts
      cases instr with
      | CreateMetadata n s i d imm =>
          match accounts, hkeys, h with
          | [], hkeys, h => rfl
          | [a0], hkeys, h => rfl
          | [a0, a1], hkeys, h => rfl
          | [a0, a1, a2], hkeys, h => rfl
          | [a0, a1, a2, a3], hkeys, h => rfl
          | a0 :: a1 :: a2 :: a3 :: a4 :: rest, hkeys, h =>
            rcases create_metadata_cases fpa unpackMint program_id a0 a1 a2 a3 a4
                rest n s i d imm (hkeys a2 (by simp)) (hkeys a4 (by simp)) with
              hc | hc
            · exact hc
            · exact absurd (h.symm.trans hc) (by simp)
      | UpdateMetadata n s i d =>
          rcases update_metadata_cases accounts n s i d with hc | hc
          · exact hc
          · exact absurd (h.symm.trans hc) (by simp)
      | CreateAttributes dta =>
          match accounts, hkeys, h with
          | [], hkeys, h => rfl
          | [a0], hkeys, h => rfl
          | [a0, a1], hkeys, h => rfl
          | [a0, a1, a2], hkeys, h => rfl
          | [a0, a1, a2, a3], hkeys, h => rfl
          | [a0, a1, a2, a3, a4], hkeys, h => rfl
          | a0 :: a1 :: a2 :: a3 :: a4 :: a5 :: rest, hkeys, h =>
            rcases create_attributes_cases fpa program_id a0 a1 a2 a3 a4 a5 rest
                dta (hkeys a2 (by simp)) with hc | hc
            · exact hc
            · exact absurd (h.symm.trans hc) (by simp)
      | ReplaceAttributes dta =>
          rcases replace_attributes_cases fpa program_id accounts dta with hc | hc
          · exact hc
          · exact absurd (h.symm.trans hc) (by simp)
      | TransferAuthority na =>
          rcases transfer_authority_cases accounts na with hc | hc
          · exact hc
          · exact absurd (h.symm.trans hc) (by simp)
      | MakeImmutable =>
          rcases make_immutable_cases accounts with hc | hc
          · exact hc
          · exact absurd (h.symm.trans hc) (by simp)
  · intro fpa unpackMint program_id payer_info system_program_info mint_info
      metadata_info mint_authority_info rest name symbol image description
      immutable mint matched md howner hm hinit hres hsig hpda hsize hown hu
      hinitmd
    have hens : ensure_metadata_account payer_info system_program_info
        metadata_info program_id = .ok metadata_info := by
      unfold ensure_metadata_account
      rw [if_neg (by simp [hown])]
    simp only [process_create_metadata]
    rw [if_neg (by simp [howner])]
    simp only [hm]
    rw [if_neg (by simp [hinit])]
    simp only [hres]
    rw [if_neg (by simp [hsig]), if_neg (by simp [hpda]), if_neg hsize]
    simp only [hens]
    rw [if_pos (unpack_md_initialized_head hu hinitmd)]

/-- Witness for C3: an invocation with undecodable instruction bytes errors
and leaves the (empty) account list unchanged, and a concrete second
CreateMetadata over an already-initialized record fails with
MetadataAlreadyExists leaving every account unchanged. -/
theorem c3_atomicity_on_failure_witness :
    (process samplePda sampleUnpackMint (samplePk 5) [] []).1 =
      .fail .InvalidInstructionData ∧
    (process samplePda sampleUnpackMint (samplePk 5) [] []).2 = [] ∧
    process_create_metadata samplePda sampleUnpackMint (samplePk 5)
        [sampleAuthAccount, sampleSysAccount, sampleMintAccount,
         sampleOwnedMdAccount, sampleAuthAccount] [65] [66] [67] [68] false =
      (.fail (MetadataError.MetadataAlreadyExists.toProgramError),
       [sampleAuthAccount, sampleSysAccount, sampleMintAccount,
        sampleOwnedMdAccount, sampleAuthAccount]) := by
  refine ⟨by decide, ?_, ?_⟩
  · exact c3_atomicity_on_failure.1 samplePda sampleUnpackMint (samplePk 5) [] []
      .InvalidInstructionData (by simp) (by decide)
  · exact c3_atomicity_on_failure.2 samplePda sampleUnpackMint (samplePk 5)
      sampleAuthAccount sampleSysAccount sampleMintAccount sampleOwnedMdAccount
      sampleAuthAccount [] [65] [66] [67] [68] false sampleMint (samplePk 7)
      sampleMutableMd (by decide) rfl (by decide) (by decide) (by decide)
      (by decide) (by decide) (by decide) (by decide) (by decide)

/-- The mint key stored in a deserializable attributes record is 32 bytes. -/
theorem unpack_attrs_mint_length {bs : List Nat} {a : TokenMetadataAttributes}
    (h : TokenMetadataAttributes.unpack_from_slice bs = some a) :
    a.mint.length = 32 := by
  obtain ⟨r, hr⟩ := unpack_attrs_inv h
  obtain ⟨bs1, bs2, -, h2, -⟩ := deserializeAttributes_inv hr
  exact readPubkey_length h2

/-- C6: UpdateMetadata has per-field three-valued semantics. On a valid
initialized record with a matching signing authority, every field supplied
within its cap is set and every field supplied as none keeps its old value,
while is_initialized, mint and update_authority are unchanged; a supplied
field over its cap fails with StringTooLong and changes nothing. -/
theorem c6_update_metadata_three_valued :
    (∀ (metadata_info update_authority_info : AccountInfo)
       (rest : List AccountInfo) (md : TokenMetadata)
       (name symbol image description : Option (List Nat)) (current_auth : Pubkey),
       update_authority_info.is_signer = true →
       TokenMetadata.unpack_from_slice metadata_info.data = some md →
       md.is_initialized = true →
       md.update_authority = some current_auth →
       cmp_pubkeys current_auth update_authority_info.key = true →
       md.isValid = true →
       tooLong NAME_MAX_LEN name = false →
       tooLong SYMBOL_MAX_LEN symbol = false →
       tooLong IMAGE_MAX_LEN image = false →
       tooLong DESCRIPTION_MAX_LEN description = false →
       TOKEN_METADATA_MAX_LEN ≤ metadata_info.data.length →
       ∃ buf,
         process_update_metadata (metadata_info :: update_authority_info :: rest)
             name symbol image description =
           (.ok (), { metadata_info with data := buf } ::
             update_authority_info :: rest) ∧
         TokenMetadata.unpack_from_slice buf =
           some { is_initialized := md.is_initialized, mint := md.mint,
                  name := name.getD md.name, symbol := symbol.getD md.symbol,
                  image := image.getD md.image,
                  description := description.getD md.description,
                  update_authority := md.update_authority }) ∧
    (∀ (metadata_info update_authority_info : AccountInfo)
       (rest : List AccountInfo) (md : TokenMetadata)
       (name symbol image description : Option (List Nat)) (current_auth : Pubkey),
       update_authority_info.is_signer = true →
       TokenMetadata.unpack_from_slice metadata_info.data = some md →
       md.is_initialized = true →
       md.update_authority = some current_auth →
       cmp_pubkeys current_auth update_authority_info.key = true →
       tooLong NAME_MAX_LEN name = true →
       process_update_metadata (metadata_info :: update_authority_info :: rest)
           name symbol image description =
         (.fail (MetadataError.StringTooLong.toProgramError),
          metadata_info :: update_authority_info :: rest)) ∧
    (∀ (metadata_info update_authority_info : AccountInfo)
       (rest : List AccountInfo) (md : TokenMetadata)
       (name symbol image description : Option (List Nat)) (current_auth : Pubkey),
       update_authority_info.is_signer = true →
       TokenMetadata.unpack_from_slice metadata_info.data = some md →
       md.is_initialized = true →
       md.update_authority = some current_auth →
       cmp_pubkeys current_auth update_authority_info.key = true →
       tooLong NAME_MAX_LEN name = false →
       tooLong SYMBOL_MAX_LEN symbol = true →
       process_update_metadata (metadata_info :: update_authority_info :: rest)
           name symbol image description =
         (.fail (MetadataError.StringTooLong.toProgramError),
          metadata_info :: update_authority_info :: rest)) ∧
    (∀ (metadata_info update_authority_info : AccountInfo)
       (rest : List AccountInfo) (md : TokenMetadata)
       (name symbol image description : Option (List Nat)) (current_auth : Pubkey),
       update_authority_info.is_signer = true →
       TokenMetadata.unpack_from_slice metadata_info.data = some md →
       md.is_initialized = true →
       md.update_authority = some current_auth →
       cmp_pubkeys current_auth update_authority_info.key = true →
       tooLong NAME_MAX_LEN name = false →
       tooLong SYMBOL_MAX_LEN symbol = false →
       tooLong IMAGE_MAX_LEN image = true →
       process_update_metadata (metadata_info :: update_authority_info :: rest)
           name symbol image description =
         (.fail (MetadataError.StringTooLong.toProgramError),
          metadata_info :: update_authority_info :: rest)) ∧
    (∀ (metadata_info update_authority_info : AccountInfo)
       (rest : List AccountInfo) (md : TokenMetadata)
       (name symbol image description : Option (List Nat)) (current_auth : Pubkey),
       update_authority_info.is_signer = true →
       TokenMetadata.unpack_from_slice metadata_info.data = some md →
       md.is_initialized = true →
       md.update_authority = some current_auth →
       cmp_pubkeys current_auth update_authority_info.key = true →
       tooLong NAME_MAX_LEN name = false →
       tooLong SYMBOL_MAX_LEN symbol = false →
       tooLong IMAGE_MAX_LEN image = false →
       tooLong DESCRIPTION_MAX_LEN description = true →
       process_update_metadata (metadata_info :: update_authority_info :: rest)
           name symbol image description =
         (.fail (MetadataError.StringTooLong.toProgramError),
          metadata_info :: update_authority_info :: rest)) := by
  refine ⟨?_, ?_, ?_, ?_, ?_⟩
  · intro metadata_info update_authority_info rest md name symbol image description
      current_auth hsig hu hinit hua hcmp hvalid htn hts hti htd hlen
    obtain ⟨hm32, hp32, hnv, hsv, hiv, hdv⟩ := TokenMetadata_isValid_spec hvalid
    have hn2 : (name.getD md.name).length ≤ NAME_MAX_LEN := by
      cases name with
      | none => simpa using hnv
      | some n => simpa [tooLong] using htn
    have hs2 : (symbol.getD md.symbol).length ≤ SYMBOL_MAX_LEN := by
      cases symbol with
      | none => simpa using hsv
      | some s => simpa [tooLong] using hts
    have hi2 : (image.getD md.image).length ≤ IMAGE_MAX_LEN := by
      cases image with
      | none => simpa using hiv
      | some i => simpa [tooLong] using hti
    have hd2 : (description.getD md.description).length ≤ DESCRIPTION_MAX_LEN := by
      cases description with
      | none => simpa using hdv
      | some d => simpa [tooLong] using htd
    obtain ⟨b, hser, hble⟩ := serializeTokenMetadata_exists
      { md with
        name := name.getD md.name, symbol := symbol.getD md.symbol,
        image := image.getD md.image,
        description := description.getD md.description }
      hm32 hn2 hs2 hi2 hd2 hp32
    have hp : TokenMetadata.pack_into_slice
        { md with
          name := name.getD md.name, symbol := symbol.getD md.symbol,
          image := image.getD md.image,
          description := description.getD md.description }
        metadata_info.data.length =
        some (b ++ List.replicate (metadata_info.data.length - b.length) 0) := by
      unfold TokenMetadata.pack_into_slice
      simp only [hser]
      rw [if_pos (le_trans hble hlen)]
    refine ⟨b ++ List.replicate (metadata_info.data.length - b.length) 0, ?_, ?_⟩
    · simp only [process_update_metadata]
      rw [if_neg (by simp [hsig])]
      simp only [hu]
      rw [if_neg (by simp [hinit])]
      simp only [hua]
      rw [if_neg (by simp [hcmp]), if_neg (by simp [htn]), if_neg (by simp [hts]),
        if_neg (by simp [hti]), if_neg (by simp [htd])]
      rw [hua] at hp
      rw [hp]
    · unfold TokenMetadata.unpack_from_slice
      rw [deserialize_serialize_md hser]
      rfl
  · intro metadata_info update_authority_info rest md name symbol image description
      current_auth hsig hu hinit hua hcmp htn
    simp [process_update_metadata, hsig, hu, hinit, hua, hcmp, htn]
  · intro metadata_info update_authority_info rest md name symbol image description
      current_auth hsig hu hinit hua hcmp htn hts
    simp [process_update_metadata, hsig, hu, hinit, hua, hcmp, htn, hts]
  · intro metadata_info update_authority_info rest md name symbol image description
      current_auth hsig hu hinit hua hcmp htn hts hti
    simp [process_update_metadata, hsig, hu, hinit, hua, hcmp, htn, hts, hti]
  · intro metadata_info update_authority_info rest md name symbol image description
      current_auth hsig hu hinit hua hcmp htn hts hti htd
    simp [process_update_metadata, hsig, hu, hinit, hua, hcmp, htn, hts, hti, htd]

/-- Witness for C6: updating only the name of a concrete record sets the
name and keeps every other field, including the update authority. -/
theorem c6_update_metadata_three_valued_witness :
    (process_update_metadata [sampleBigMdAccount, sampleAuthAccount]
        (some [78]) none none none).1 = .ok () ∧
    TokenMetadata.unpack_from_slice
        (((process_update_metadata [sampleBigMdAccount, sampleAuthAccount]
            (some [78]) none none none).2.getD 0 sampleAuthAccount).data) =
      some { is_initialized := true, mint := samplePk 4, name := [78],
             symbol := [66], image := [67], description := [68],
             update_authority := some (samplePk 7) } := by
  obtain ⟨buf, hres, hunp⟩ :=
    c6_update_metadata_three_valued.1 sampleBigMdAccount sampleAuthAccount []
      sampleMutableMd (some [78]) none none none (samplePk 7) (by decide)
      (by decide) (by decide) (by decide) (by decide) (by decide) (by decide)
      (by decide) (by decide) (by decide) (by decide)
  constructor
  · rw [hres]
  · rw [hres]
    exact hunp

/-- C7: ReplaceAttributes wholesale-replaces. The attributes address is
recomputed from the mint stored in the metadata record itself, and a
mismatch fails with InvalidSeeds; on success the stored list is exactly the
supplied list while is_initialized and mint are unchanged. -/
theorem c7_replace_attributes_wholesale :
    (∀ (fpa : PdaFn) (program_id : Pubkey)
       (attributes_info update_authority_info metadata_info : AccountInfo)
       (rest : List AccountInfo) (md : TokenMetadata)
       (data : List (List Nat × List Nat)) (current_auth : Pubkey),
       update_authority_info.is_signer = true →
       TokenMetadata.unpack_from_slice metadata_info.data = some md →
       md.is_initialized = true →
       md.update_authority = some current_auth →
       cmp_pubkeys current_auth update_authority_info.key = true →
       cmp_pubkeys (find_attributes_pda_with_program fpa program_id md.mint).1
         attributes_info.key = false →
       process_replace_attributes fpa program_id
           (attributes_info :: update_authority_info :: metadata_info :: rest)
           data =
         (.fail .InvalidSeeds,
          attributes_info :: update_authority_info :: metadata_info :: rest)) ∧
    (∀ (fpa : PdaFn) (program_id : Pubkey)
       (attributes_info update_authority_info metadata_info : AccountInfo)
       (rest : List AccountInfo) (md : TokenMetadata)
       (attrs : TokenMetadataAttributes)
       (data : List (List Nat × List Nat)) (current_auth : Pubkey),
       update_authority_info.is_signer = true →
       TokenMetadata.unpack_from_slice metadata_info.data = some md →
       md.is_initialized = true →
       md.update_authority = some current_auth →
       cmp_pubkeys current_auth update_authority_info.key = true →
       cmp_pubkeys (find_attributes_pda_with_program fpa program_id md.mint).1
         attributes_info.key = true →
       TokenMetadataAttributes.unpack_from_slice attributes_info.data = some attrs →
       attrs.is_initialized = true →
       ¬(MAX_ATTRIBUTES < data.length) →
       validate_attribute_pairs data = none →
       TOKEN_METADATA_ATTRIBUTES_MAX_LEN ≤ attributes_info.data.length →
       ∃ buf,
         process_replace_attributes fpa program_id
             (attributes_info :: update_authority_info :: metadata_info :: rest)
             data =
           (.ok (), { attributes_info with data := buf } ::
             update_authority_info :: metadata_info :: rest) ∧
         TokenMetadataAttributes.unpack_from_slice buf =
           some { is_initialized := attrs.is_initialized, mint := attrs.mint,
                  data := data }) := by
  constructor
  · intro fpa program_id attributes_info update_authority_info metadata_info rest
      md data current_auth hsig hu hinit hua hcmp hpda
    simp [process_replace_attributes, hsig, hu, hinit, hua, hcmp, hpda]
  · intro fpa program_id attributes_info update_authority_info metadata_info rest
      md attrs data current_auth hsig hu hinit hua hcmp hpda hattrs hainit hcount
      hval hlen
    have hall : ∀ p ∈ data, p.1.length ≤ MAX_KEY_LENGTH ∧
        p.2.length ≤ MAX_VALUE_LENGTH := fun p hp =>
      ⟨(validate_attribute_pairs_bounds hval p hp).2.1,
       (validate_attribute_pairs_bounds hval p hp).2.2.2⟩
    have hm32 := unpack_attrs_mint_length hattrs
    obtain ⟨b, hser, hble⟩ := serializeAttributes_exists
      { attrs with data := data } hm32 (le_of_not_lt hcount) hall
    have hp : TokenMetadataAttributes.pack_into_slice { attrs with data := data }
        attributes_info.data.length =
        some (b ++ List.replicate (attributes_info.data.length - b.length) 0) := by
      unfold TokenMetadataAttributes.pack_into_slice
      simp only [hser]
      rw [if_pos (le_trans hble hlen)]
    refine ⟨b ++ List.replicate (attributes_info.data.length - b.length) 0, ?_, ?_⟩
    · simp only [process_replace_attributes]
      rw [if_neg (by simp [hsig])]
      simp only [hu]
      rw [if_neg (by simp [hinit])]
      simp only [hua]
      rw [if_neg (by simp [hcmp]), if_neg (by simp [hpda])]
      simp only [hattrs]
      rw [if_neg (by simp [hainit]), if_neg hcount]
      simp only [hval]
      rw [hp]
    · unfold TokenMetadataAttributes.unpack_from_slice
      rw [deserialize_serialize_attrs hser]
      rfl

/-- Witness for C7: replacing the pair list of a concrete attributes record
stores exactly the supplied list and keeps the record mint. -/
theorem c7_replace_attributes_wholesale_witness :
    (process_replace_attributes samplePda (samplePk 5)
        [sampleAttrsAccount, sampleAuthAccount, sampleBigMdAccount]
        [([77], [88])]).1 = .ok () ∧
    TokenMetadataAttributes.unpack_from_slice
        (((process_replace_attributes samplePda (samplePk 5)
            [sampleAttrsAccount, sampleAuthAccount, sampleBigMdAccount]
            [([77], [88])]).2.getD 0 sampleAuthAccount).data) =
      some { is_initialized := true, mint := samplePk 4,
             data := [([77], [88])] } := by
  have hser : serializeAttributes sampleAttrsRecord =
      some ((serializeAttributes sampleAttrsRecord).getD []) := by decide
  have hattrs : TokenMetadataAttributes.unpack_from_slice sampleAttrsAccount.data =
      some sampleAttrsRecord := by
    show TokenMetadataAttributes.unpack_from_slice sampleAttrsBuf =
      some sampleAttrsRecord
    unfold sampleAttrsBuf TokenMetadataAttributes.unpack_from_slice
    rw [deserialize_serialize_attrs hser]
    rfl
  have hlen : TOKEN_METADATA_ATTRIBUTES_MAX_LEN ≤
      sampleAttrsAccount.data.length := by
    show TOKEN_METADATA_ATTRIBUTES_MAX_LEN ≤ sampleAttrsBuf.length
    unfold sampleAttrsBuf
    rw [List.length_append, List.length_replicate]
    decide
  obtain ⟨buf, hres, hunp⟩ :=
    c7_replace_attributes_wholesale.2 samplePda (samplePk 5) sampleAttrsAccount
      sampleAuthAccount sampleBigMdAccount [] sampleMutableMd sampleAttrsRecord
      [([77], [88])] (samplePk 7) (by decide) (by decide) (by decide) (by decide)
      (by decide) (by decide) hattrs (by decide) (by decide) (by decide)
      hlen
  constructor
  · rw [hres]
  · rw [hres]
    exact hunp

/-- C8: field and attribute validation. An oversized CreateMetadata string
fails with StringTooLong; an attribute list of more than MAX_ATTRIBUTES
pairs fails with TooManyAttributes; an in-caps list containing an empty key
or value fails with InvalidInstructionData; a nonempty-pairs list with an
oversized key or value fails with StringTooLong — on both CreateAttributes
and ReplaceAttributes, always leaving every account unchanged. -/
theorem c8_field_and_attribute_validation :
    (∀ (fpa : PdaFn) (unpackMint : List Nat → Option Mint) (program_id : Pubkey)
       (payer_info system_program_info mint_info metadata_info
         mint_authority_info : AccountInfo) (rest : List AccountInfo)
       (name symbol image description : List Nat) (immutable : Bool)
       (mint : Mint) (matched : Pubkey),
       mint_info.owner = apl_token_id →
       unpackMint mint_info.data = some mint →
       mint.is_initialized = true →
       resolve_creation_authority mint mint_authority_info.key = some matched →
       mint_authority_info.is_signer = true →
       cmp_pubkeys (find_metadata_pda_with_program fpa program_id mint_info.key).1
         metadata_info.key = true →
       (NAME_MAX_LEN < name.length ∨ SYMBOL_MAX_LEN < symbol.length ∨
         IMAGE_MAX_LEN < image.length ∨ DESCRIPTION_MAX_LEN < description.length) →
       process_create_metadata fpa unpackMint program_id
           (payer_info :: system_program_info :: mint_info :: metadata_info ::
             mint_authority_info :: rest) name symbol image description immutable =
         (.fail (MetadataError.StringTooLong.toProgramError),
          payer_info :: system_program_info :: mint_info :: metadata_info ::
            mint_authority_info :: rest)) ∧
    (∀ (fpa : PdaFn) (program_id : Pubkey)
       (payer_info system_program_info mint_info attributes_info
         update_authority_info metadata_info : AccountInfo)
       (rest : List AccountInfo) (md : TokenMetadata)
       (data : List (List Nat × List Nat)) (current_auth : Pubkey),
       payer_info.is_signer = true →
       update_authority_info.is_signer = true →
       cmp_pubkeys (find_attributes_pda_with_program fpa program_id mint_info.key).1
         attributes_info.key = true →
       TokenMetadata.unpack_from_slice metadata_info.data = some md →
       md.is_initialized = true →
       cmp_pubkeys md.mint mint_info.key = true →
       md.update_authority = some current_auth →
       cmp_pubkeys current_auth update_authority_info.key = true →
       MAX_ATTRIBUTES < data.length →
       process_create_attributes fpa program_id
           (payer_info :: system_program_info :: mint_info :: attributes_info ::
             update_authority_info :: metadata_info :: rest) data =
         (.fail (MetadataError.TooManyAttributes.toProgramError),
          payer_info :: system_program_info :: mint_info :: attributes_info ::
            update_authority_info :: metadata_info :: rest)) ∧
    (∀ (fpa : PdaFn) (program_id : Pubkey)
       (payer_info system_program_info mint_info attributes_info
         update_authority_info metadata_info : AccountInfo)
       (rest : List AccountInfo) (md : TokenMetadata)
       (data : List (List Nat × List Nat)) (current_auth : Pubkey),
       payer_info.is_signer = true →
       update_authority_info.is_signer = true →
       cmp_pubkeys (find_attributes_pda_with_program fpa program_id mint_info.key).1
         attributes_info.key = true →
       TokenMetadata.unpack_from_slice metadata_info.data = some md →
       md.is_initialized = true →
       cmp_pubkeys md.mint mint_info.key = true →
       md.update_authority = some current_auth →
       cmp_pubkeys current_auth update_authority_info.key = true →
       ¬ MAX_ATTRIBUTES < data.length →
       (∀ p ∈ data, p.1.length ≤ MAX_KEY_LENGTH ∧ p.2.length ≤ MAX_VALUE_LENGTH) →
       (∃ p ∈ data, p.1.length = 0 ∨ p.2.length = 0) →
       process_create_attributes fpa program_id
           (payer_info :: system_program_info :: mint_info :: attributes_info ::
             update_authority_info :: metadata_info :: rest) data =
         (.fail (MetadataError.InvalidInstructionData.toProgramError),
          payer_info :: system_program_info :: mint_info :: attributes_info ::
            update_authority_info :: metadata_info :: rest)) ∧
    (∀ (fpa : PdaFn) (program_id : Pubkey)
       (payer_info system_program_info mint_info attributes_info
         update_authority_info metadata_info : AccountInfo)
       (rest : List AccountInfo) (md : TokenMetadata)
       (data : List (List Nat × List Nat)) (current_auth : Pubkey),
       payer_info.is_signer = true →
       update_authority_info.is_signer = true →
       cmp_pubkeys (find_attributes_pda_with_program fpa program_id mint_info.key).1
         attributes_info.key = true →
       TokenMetadata.unpack_from_slice metadata_info.data = some md →
       md.is_initialized = true →
       cmp_pubkeys md.mint mint_info.key = true →
       md.update_authority = some current_auth →
       cmp_pubkeys current_auth update_authority_info.key = true →
       ¬ MAX_ATTRIBUTES < data.length →
       (∀ p ∈ data, 1 ≤ p.1.length ∧ 1 ≤ p.2.length) →
       (∃ p ∈ data, MAX_KEY_LENGTH < p.1.length ∨ MAX_VALUE_LENGTH < p.2.length) →
       process_create_attributes fpa program_id
           (payer_info :: system_program_info :: mint_info :: attributes_info ::
             update_authority_info :: metadata_info :: rest) data =
         (.fail (MetadataError.StringTooLong.toProgramError),
          payer_info :: system_program_info :: mint_info :: attributes_info ::
            update_authority_info :: metadata_info :: rest)) ∧
    (∀ (fpa : PdaFn) (program_id : Pubkey)
       (attributes_info update_authority_info metadata_info : AccountInfo)
       (rest : List AccountInfo) (md : TokenMetadata)
       (attrs : TokenMetadataAttributes)
       (data : List (List Nat × List Nat)) (current_auth : Pubkey),
       update_authority_info.is_signer = true →
       TokenMetadata.unpack_from_slice metadata_info.data = some md →
       md.is_initialized = true →
       md.update_authority = some current_auth →
       cmp_pubkeys current_auth update_authority_info.key = true →
       cmp_pubkeys (find_attributes_pda_with_program fpa program_id md.mint).1
         attributes_info.key = true →
       TokenMetadataAttributes.unpack_from_slice attributes_info.data = some attrs →
       attrs.is_initialized = true →
       MAX_ATTRIBUTES < data.length →
       process_replace_attributes fpa program_id
           (attributes_info :: update_authority_info :: metadata_info :: rest)
           data =
         (.fail (MetadataError.TooManyAttributes.toProgramError),
          attributes_info :: update_authority_info :: metadata_info :: rest)) ∧
    (∀ (fpa : PdaFn) (program_id : Pubkey)
       (attributes_info update_authority_info metadata_info : AccountInfo)
       (rest : List AccountInfo) (md : TokenMetadata)
       (attrs : TokenMetadataAttributes)
       (data : List (List Nat × List Nat)) (current_auth : Pubkey),
       update_authority_info.is_signer = true →
       TokenMetadata.unpack_from_slice metadata_info.data = some md →
       md.is_initialized = true →
       md.update_authority = some current_auth →
       cmp_pubkeys current_auth update_authority_info.key = true →
       cmp_pubkeys (find_attributes_pda_with_program fpa program_id md.mint).1
         attributes_info.key = true →
       TokenMetadataAttributes.unpack_from_slice attributes_info.data = some attrs →
       attrs.is_initialized = true →
       ¬ MAX_ATTRIBUTES < data.length →
       (∀ p ∈ data, p.1.length ≤ MAX_KEY_LENGTH ∧ p.2.length ≤ MAX_VALUE_LENGTH) →
       (∃ p ∈ data, p.1.length = 0 ∨ p.2.length = 0) →
       process_replace_attributes fpa program_id
           (attributes_info :: update_authority_info :: metadata_info :: rest)
           data =
         (.fail (MetadataError.InvalidInstructionData.toProgramError),
          attributes_info :: update_authority_info :: metadata_info :: rest)) ∧
    (∀ (fpa : PdaFn) (program_id : Pubkey)
       (attributes_info update_authority_info metadata_info : AccountInfo)
       (rest : List AccountInfo) (md : TokenMetadata)
       (attrs : TokenMetadataAttributes)
       (data : List (List Nat × List Nat)) (current_auth : Pubkey),
       update_authority_info.is_signer = true →
       TokenMetadata.unpack_from_slice metadata_info.data = some md →
       md.is_initialized = true →
       md.update_authority = some current_auth →
       cmp_pubkeys current_auth update_authority_info.key = true →
       cmp_pubkeys (find_attributes_pda_with_program fpa program_id md.mint).1
         attributes_info.key = true →
       TokenMetadataAttributes.unpack_from_slice attributes_info.data = some attrs →
       attrs.is_initialized = true →
       ¬ MAX_ATTRIBUTES < data.length →
       (∀ p ∈ data, 1 ≤ p.1.length ∧ 1 ≤ p.2.length) →
       (∃ p ∈ data, MAX_KEY_LENGTH < p.1.length ∨ MAX_VALUE_LENGTH < p.2.length) →
       process_replace_attributes fpa program_id
           (attributes_info :: update_authority_info :: metadata_info :: rest)
           data =
         (.fail (MetadataError.StringTooLong.toProgramError),
          attributes_info :: update_authority_info :: metadata_info :: rest)) := by
  refine ⟨?_, ?_, ?_, ?_, ?_, ?_, ?_⟩
  · intro fpa unpackMint program_id payer_info system_program_info mint_info
      metadata_info mint_authority_info rest name symbol image description
      immutable mint matched howner hm hinit hres hsig hpda hlong
    simp only [process_create_metadata]
    rw [if_neg (by simp [howner])]
    simp only [hm]
    rw [if_neg (by simp [hinit])]
    simp only [hres]
    rw [if_neg (by simp [hsig]), if_neg (by simp [hpda]), if_pos hlong]
  · intro fpa program_id payer_info system_program_info mint_info attributes_info
      update_authority_info metadata_info rest md data current_auth hp hs hpda hu
      hinit hmm hua hcmp hcount
    simp [process_create_attributes, hp, hs, hpda, hu, hinit, hmm, hua, hcmp,
      hcount]
  · intro fpa program_id payer_info system_program_info mint_info attributes_info
      update_authority_info metadata_info rest md data current_auth hp hs hpda hu
      hinit hmm hua hcmp hcount hcaps hsome
    have hval := validate_attribute_pairs_empty hcaps hsome
    simp [process_create_attributes, hp, hs, hpda, hu, hinit, hmm, hua, hcmp,
      hcount, hval]
  · intro fpa program_id payer_info system_program_info mint_info attributes_info
      update_authority_info metadata_info rest md data current_auth hp hs hpda hu
      hinit hmm hua hcmp hcount hne hsome
    have hval := validate_attribute_pairs_too_long hne hsome
    simp [process_create_attributes, hp, hs, hpda, hu, hinit, hmm, hua, hcmp,
      hcount, hval]
  · intro fpa program_id attributes_info update_authority_info metadata_info rest
      md attrs data current_auth hsig hu hinit hua hcmp hpda hattrs hainit hcount
    simp [process_replace_attributes, hsig, hu, hinit, hua, hcmp, hpda, hattrs,
      hainit, hcount]
  · intro fpa program_id attributes_info update_authority_info metadata_info rest
      md attrs data current_auth hsig hu hinit hua hcmp hpda hattrs hainit hcount
      hcaps hsome
    have hval := validate_attribute_pairs_empty hcaps hsome
    simp [process_replace_attributes, hsig, hu, hinit, hua, hcmp, hpda, hattrs,
      hainit, hcount, hval]
  · intro fpa program_id attributes_info update_authority_info metadata_info rest
      md attrs data current_auth hsig hu hinit hua hcmp hpda hattrs hainit hcount
      hne hsome
    have hval := validate_attribute_pairs_too_long hne hsome
    simp [process_replace_attributes, hsig, hu, hinit, hua, hcmp, hpda, hattrs,
      hainit, hcount, hval]

/-- Witness for C8: a 257-byte name fails with StringTooLong, a 33-pair
attribute list fails with TooManyAttributes, and an empty attribute key
fails with InvalidInstructionData, all leaving accounts unchanged. -/
theorem c8_field_and_attribute_validation_witness :
    process_create_metadata samplePda sampleUnpackMint (samplePk 5)
        [sampleAuthAccount, sampleSysAccount, sampleMintAccount,
         sampleFreshMdAccount, sampleAuthAccount]
        (List.replicate 257 65) [66] [67] [68] false =
      (.fail (MetadataError.StringTooLong.toProgramError),
       [sampleAuthAccount, sampleSysAccount, sampleMintAccount,
        sampleFreshMdAccount, sampleAuthAccount]) ∧
    process_create_attributes samplePda (samplePk 5)
        [sampleAuthAccount, sampleSysAccount, sampleMintAccount,
         sampleFreshMdAccount, sampleAuthAccount, sampleOwnedMdAccount]
        (List.replicate 33 ([75], [86])) =
      (.fail (MetadataError.TooManyAttributes.toProgramError),
       [sampleAuthAccount, sampleSysAccount, sampleMintAccount,
        sampleFreshMdAccount, sampleAuthAccount, sampleOwnedMdAccount]) ∧
    process_create_attributes samplePda (samplePk 5)
        [sampleAuthAccount, sampleSysAccount, sampleMintAccount,
         sampleFreshMdAccount, sampleAuthAccount, sampleOwnedMdAccount]
        [([], [86])] =
      (.fail (MetadataError.InvalidInstructionData.toProgramError),
       [sampleAuthAccount, sampleSysAccount, sampleMintAccount,
        sampleFreshMdAccount, sampleAuthAccount, sampleOwnedMdAccount]) := by
  refine ⟨?_, ?_, ?_⟩
  · exact c8_field_and_attribute_validation.1 samplePda sampleUnpackMint
      (samplePk 5) sampleAuthAccount sampleSysAccount sampleMintAccount
      sampleFreshMdAccount sampleAuthAccount [] (List.replicate 257 65) [66] [67]
      [68] false sampleMint (samplePk 7) (by decide) rfl (by decide) (by decide)
      (by decide) (by decide) (by decide)
  · exact c8_field_and_attribute_validation.2.1 samplePda (samplePk 5)
      sampleAuthAccount sampleSysAccount sampleMintAccount sampleFreshMdAccount
      sampleAuthAccount sampleOwnedMdAccount [] sampleMutableMd
      (List.replicate 33 ([75], [86])) (samplePk 7) (by decide) (by decide)
      (by decide) (by decide) (by decide) (by decide) (by decide) (by decide)
      (by decide)
  · exact c8_field_and_attribute_validation.2.2.1 samplePda (samplePk 5)
      sampleAuthAccount sampleSysAccount sampleMintAccount sampleFreshMdAccount
      sampleAuthAccount sampleOwnedMdAccount [] sampleMutableMd
      [([], [86])] (samplePk 7) (by decide) (by decide) (by decide) (by decide)
      (by decide) (by decide) (by decide) (by decide) (by decide) (by decide)
      (by decide)

/-- An on-demand metadata creation failure is a system-level error, never a
program-specific Custom code. -/
theorem ensure_metadata_account_fail {payer_info system_program_info target :
    AccountInfo} {program_id : Pubkey} {e : ProgramError}
    (h : ensure_metadata_account payer_info system_program_info target program_id =
      .fail e) :
    e = .IncorrectProgramId ∨ e = .MissingRequiredSignature ∨ e = .External := by
  unfold ensure_metadata_account at h
  repeat' split at h
  all_goals
    first
      | (simp only [PResult.fail.injEq] at h ; subst h ; simp)
      | (exact absurd h (by simp))

/-- C4 counterexample: CreateMetadata with an unreadable mint and a
mismatched metadata PDA fails with the data-read error InvalidAccountData,
not InvalidSeeds: the handler reads account data before it reconstructs and
checks the derived metadata address, so derived-address checks do not come
first. -/
theorem c4_counterexample :
    process_create_metadata samplePda sampleNoMint (samplePk 5)
        [sampleAuthAccount, sampleSysAccount, sampleMintAccount,
         { key := samplePk 11, owner := samplePk 3, is_signer := false,
           data := [] },
         sampleAuthAccount] [65] [66] [67] [68] false =
      (.fail .InvalidAccountData,
       [sampleAuthAccount, sampleSysAccount, sampleMintAccount,
        { key := samplePk 11, owner := samplePk 3, is_signer := false,
          data := [] },
        sampleAuthAccount]) ∧
    cmp_pubkeys
      (find_metadata_pda_with_program samplePda (samplePk 5)
        sampleMintAccount.key).1 (samplePk 11) = false ∧
    ProgramError.InvalidAccountData ≠ ProgramError.InvalidSeeds := by
  decide

/-- C4 amended: validation always precedes the single mutation of each
handler, but the order of checks is not derived-addresses-first. In
create_metadata the mint data is read and the creation authority resolved
before the metadata PDA is checked, and payload field caps are checked after
the PDA; in update_metadata the authority is checked before payload fields;
in replace_attributes the metadata record is read before the attributes PDA
is checked. Each conjunct pins one step of the actual order through the
error it produces, with the accounts unchanged. -/
theorem c4_check_order :
    (∀ (fpa : PdaFn) (unpackMint : List Nat → Option Mint) (program_id : Pubkey)
       (payer_info system_program_info mint_info metadata_info
         mint_authority_info : AccountInfo) (rest : List AccountInfo)
       (name symbol image description : List Nat) (immutable : Bool),
       mint_info.owner = apl_token_id →
       unpackMint mint_info.data = none →
       process_create_metadata fpa unpackMint program_id
           (payer_info :: system_program_info :: mint_info :: metadata_info ::
             mint_authority_info :: rest) name symbol image description immutable =
         (.fail .InvalidAccountData,
          payer_info :: system_program_info :: mint_info :: metadata_info ::
            mint_authority_info :: rest)) ∧
    (∀ (fpa : PdaFn) (unpackMint : List Nat → Option Mint) (program_id : Pubkey)
       (payer_info system_program_info mint_info metadata_info
         mint_authority_info : AccountInfo) (rest : List AccountInfo)
       (name symbol image description : List Nat) (immutable : Bool) (mint : Mint),
       mint_info.owner = apl_token_id →
       unpackMint mint_info.data = some mint →
       mint.is_initialized = true →
       resolve_creation_authority mint mint_authority_info.key = none →
       process_create_metadata fpa unpackMint program_id
           (payer_info :: system_program_info :: mint_info :: metadata_info ::
             mint_authority_info :: rest) name symbol image description immutable =
         (.fail (MetadataError.InvalidAuthority.toProgramError),
          payer_info :: system_program_info :: mint_info :: metadata_info ::
            mint_authority_info :: rest)) ∧
    (∀ (fpa : PdaFn) (unpackMint : List Nat → Option Mint) (program_id : Pubkey)
       (payer_info system_program_info mint_info metadata_info
         mint_authority_info : AccountInfo) (rest : List AccountInfo)
       (name symbol image description : List Nat) (immutable : Bool)
       (mint : Mint) (matched : Pubkey),
       mint_info.owner = apl_token_id →
       unpackMint mint_info.data = some mint →
       mint.is_initialized = true →
       resolve_creation_authority mint mint_authority_info.key = some matched →
       mint_authority_info.is_signer = true →
       cmp_pubkeys (find_metadata_pda_with_program fpa program_id mint_info.key).1
         metadata_info.key = false →
       process_create_metadata fpa unpackMint program_id
           (payer_info :: system_program_info :: mint_info :: metadata_info ::
             mint_authority_info :: rest) name symbol image description immutable =
         (.fail .InvalidSeeds,
          payer_info :: system_program_info :: mint_info :: metadata_info ::
            mint_authority_info :: rest)) ∧
    (∀ (fpa : PdaFn) (unpackMint : List Nat → Option Mint) (program_id : Pubkey)
       (payer_info system_program_info mint_info metadata_info
         mint_authority_info : AccountInfo) (rest : List AccountInfo)
       (name symbol image description : List Nat) (immutable : Bool)
       (mint : Mint) (matched : Pubkey),
       mint_info.owner = apl_token_id →
       unpackMint mint_info.data = some mint →
       mint.is_initialized = true →
       resolve_creation_authority mint mint_authority_info.key = some matched →
       mint_authority_info.is_signer = true →
       cmp_pubkeys (find_metadata_pda_with_program fpa program_id mint_info.key).1
         metadata_info.key = true →
       (NAME_MAX_LEN < name.length ∨ SYMBOL_MAX_LEN < symbol.length ∨
         IMAGE_MAX_LEN < image.length ∨ DESCRIPTION_MAX_LEN < description.length) →
       process_create_metadata fpa unpackMint program_id
           (payer_info :: system_program_info :: mint_info :: metadata_info ::
             mint_authority_info :: rest) name symbol image description immutable =
         (.fail (MetadataError.StringTooLong.toProgramError),
          payer_info :: system_program_info :: mint_info :: metadata_info ::
            mint_authority_info :: rest)) ∧
    (∀ (metadata_info update_authority_info : AccountInfo)
       (rest : List AccountInfo) (md : TokenMetadata)
       (name symbol image description : Option (List Nat)) (current_auth : Pubkey),
       update_authority_info.is_signer = true →
       TokenMetadata.unpack_from_slice metadata_info.data = some md →
       md.is_initialized = true →
       md.update_authority = some current_auth →
       cmp_pubkeys current_auth update_authority_info.key = false →
       process_update_metadata (metadata_info :: update_authority_info :: rest)
           name symbol image description =
         (.fail (MetadataError.InvalidAuthority.toProgramError),
          metadata_info :: update_authority_info :: rest)) ∧
    (∀ (fpa : PdaFn) (program_id : Pubkey)
       (attributes_info update_authority_info metadata_info : AccountInfo)
       (rest : List AccountInfo) (data : List (List Nat × List Nat)),
       update_authority_info.is_signer = true →
       TokenMetadata.unpack_from_slice metadata_info.data = none →
       process_replace_attributes fpa program_id
           (attributes_info :: update_authority_info :: metadata_info :: rest)
           data =
         (.fail .InvalidAccountData,
          attributes_info :: update_authority_info :: metadata_info :: rest)) := by
  refine ⟨?_, ?_, ?_, ?_, ?_, ?_⟩
  · intro fpa unpackMint program_id payer_info system_program_info mint_info
      metadata_info mint_authority_info rest name symbol image description
      immutable howner hm
    simp [process_create_metadata, howner, hm]
  · intro fpa unpackMint program_id payer_info system_program_info mint_info
      metadata_info mint_authority_info rest name symbol image description
      immutable mint howner hm hinit hres
    simp [process_create_metadata, howner, hm, hinit, hres]
  · intro fpa unpackMint program_id payer_info system_program_info mint_info
      metadata_info mint_authority_info rest name symbol image description
      immutable mint matched howner hm hinit hres hsig hpda
    simp [process_create_metadata, howner, hm, hinit, hres, hsig, hpda]
  · intro fpa unpackMint program_id payer_info system_program_info mint_info
      metadata_info mint_authority_info rest name symbol image description
      immutable mint matched howner hm hinit hres hsig hpda hlong
    simp only [process_create_metadata]
    rw [if_neg (by simp [howner])]
    simp only [hm]
    rw [if_neg (by simp [hinit])]
    simp only [hres]
    rw [if_neg (by simp [hsig]), if_neg (by simp [hpda]), if_pos hlong]
  · intro metadata_info update_authority_info rest md name symbol image
      description current_auth hsig hu hinit hua hcmp
    simp [process_update_metadata, hsig, hu, hinit, hua, hcmp]
  · intro fpa program_id attributes_info update_authority_info metadata_info rest
      data hsig hu
    simp [process_replace_attributes, hsig, hu]

/-- Witness for the amended C4 at concrete inputs: the same mismatched-PDA
call as the counterexample is pinned to the data-read error by the first
conjunct of the amended ordering theorem. -/
theorem c4_check_order_witness :
    process_create_metadata samplePda sampleNoMint (samplePk 5)
        [sampleAuthAccount, sampleSysAccount, sampleMintAccount,
         { key := samplePk 11, owner := samplePk 3, is_signer := false,
           data := [] },
         sampleAuthAccount] [65] [66] [67] [68] false =
      (.fail .InvalidAccountData,
       [sampleAuthAccount, sampleSysAccount, sampleMintAccount,
        { key := samplePk 11, owner := samplePk 3, is_signer := false,
          data := [] },
        sampleAuthAccount]) ∧
    process_update_metadata
        [sampleBigMdAccount,
         { key := samplePk 8, owner := samplePk 0, is_signer := true, data := [] }]
        (some (List.replicate 300 65)) none none none =
      (.fail (MetadataError.InvalidAuthority.toProgramError),
       [sampleBigMdAccount,
        { key := samplePk 8, owner := samplePk 0, is_signer := true,
          data := [] }]) :=
  ⟨c4_check_order.1 samplePda sampleNoMint (samplePk 5) sampleAuthAccount
      sampleSysAccount sampleMintAccount
      { key := samplePk 11, owner := samplePk 3, is_signer := false, data := [] }
      sampleAuthAccount [] [65] [66] [67] [68] false (by decide) rfl,
   c4_check_order.2.2.2.2.1 sampleBigMdAccount
      { key := samplePk 8, owner := samplePk 0, is_signer := true, data := [] }
      [] sampleMutableMd (some (List.replicate 300 65)) none none none
      (samplePk 7) (by decide) (by decide) (by decide) (by decide) (by decide)⟩

/-- C9 counterexample: CreateMetadata with a mint account not owned by the
token program fails with IncorrectProgramId, not with the InvalidMint error
kind; the error.rs InvalidMint variant (Custom code 0) is not what the
processor returns here. -/
theorem c9_counterexample :
    process_create_metadata samplePda sampleUnpackMint (samplePk 5)
        [sampleAuthAccount, sampleSysAccount,
         { key := samplePk 4, owner := samplePk 12, is_signer := false,
           data := [] },
         sampleFreshMdAccount, sampleAuthAccount] [65] [66] [67] [68] false =
      (.fail .IncorrectProgramId,
       [sampleAuthAccount, sampleSysAccount,
        { key := samplePk 4, owner := samplePk 12, is_signer := false,
          data := [] },
        sampleFreshMdAccount, sampleAuthAccount]) ∧
    ProgramError.IncorrectProgramId ≠ MetadataError.InvalidMint.toProgramError := by
  decide

/-- C9 amended: a mint account not owned by the token program fails with
IncorrectProgramId; a mint whose data the token-state reader rejects fails
with InvalidAccountData; a readable but uninitialized mint fails with
UninitializedAccount — each leaving every account unchanged — and
CreateMetadata never returns the InvalidMint error kind at all. -/
theorem c9_invalid_mint_errors :
    (∀ (fpa : PdaFn) (unpackMint : List Nat → Option Mint) (program_id : Pubkey)
       (payer_info system_program_info mint_info metadata_info
         mint_authority_info : AccountInfo) (rest : List AccountInfo)
       (name symbol image description : List Nat) (immutable : Bool),
       mint_info.owner ≠ apl_token_id →
       process_create_metadata fpa unpackMint program_id
           (payer_info :: system_program_info :: mint_info :: metadata_info ::
             mint_authority_info :: rest) name symbol image description immutable =
         (.fail .IncorrectProgramId,
          payer_info :: system_program_info :: mint_info :: metadata_info ::
            mint_authority_info :: rest)) ∧
    (∀ (fpa : PdaFn) (unpackMint : List Nat → Option Mint) (program_id : Pubkey)
       (payer_info system_program_info mint_info metadata_info
         mint_authority_info : AccountInfo) (rest : List AccountInfo)
       (name symbol image description : List Nat) (immutable : Bool),
       mint_info.owner = apl_token_id →
       unpackMint mint_info.data = none →
       process_create_metadata fpa unpackMint program_id
           (payer_info :: system_program_info :: mint_info :: metadata_info ::
             mint_authority_info :: rest) name symbol image description immutable =
         (.fail .InvalidAccountData,
          payer_info :: system_program_info :: mint_info :: metadata_info ::
            mint_authority_info :: rest)) ∧
    (∀ (fpa : PdaFn) (unpackMint : List Nat → Option Mint) (program_id : Pubkey)
       (payer_info system_program_info mint_info metadata_info
         mint_authority_info : AccountInfo) (rest : List AccountInfo)
       (name symbol image description : List Nat) (immutable : Bool) (mint : Mint),
       mint_info.owner = apl_token_id →
       unpackMint mint_info.data = some mint →
       mint.is_initialized = false →
       process_create_metadata fpa unpackMint program_id
           (payer_info :: system_program_info :: mint_info :: metadata_info ::
             mint_authority_info :: rest) name symbol image description immutable =
         (.fail .UninitializedAccount,
          payer_info :: system_program_info :: mint_info :: metadata_info ::
            mint_authority_info :: rest)) ∧
    (∀ (fpa : PdaFn) (unpackMint : List Nat → Option Mint) (program_id : Pubkey)
       (payer_info system_program_info mint_info metadata_info
         mint_authority_info : AccountInfo) (rest : List AccountInfo)
       (name symbol image description : List Nat) (immutable : Bool),
       (process_create_metadata fpa unpackMint program_id
           (payer_info :: system_program_info :: mint_info :: metadata_info ::
             mint_authority_info :: rest) name symbol image description
           immutable).1 ≠ .fail (MetadataError.InvalidMint.toProgramError)) := by
  refine ⟨?_, ?_, ?_, ?_⟩
  · intro fpa unpackMint program_id payer_info system_program_info mint_info
      metadata_info mint_authority_info rest name symbol image description
      immutable howner
    simp [process_create_metadata, howner]
  · intro fpa unpackMint program_id payer_info system_program_info mint_info
      metadata_info mint_authority_info rest name symbol image description
      immutable howner hm
    simp [process_create_metadata, howner, hm]
  · intro fpa unpackMint program_id payer_info system_program_info mint_info
      metadata_info mint_authority_info rest name symbol image description
      immutable mint howner hm hinit
    simp [process_create_metadata, howner, hm, hinit]
  · intro fpa unpackMint program_id payer_info system_program_info mint_info
      metadata_info mint_authority_info rest name symbol image description
      immutable
    simp only [process_create_metadata]
    by_cases h1 : mint_info.owner ≠ apl_token_id
    · rw [if_pos h1]
      simp [MetadataError.toProgramError, MetadataError.code]
    rw [if_neg h1]
    cases hm : unpackMint mint_info.data with
    | none => simp [MetadataError.toProgramError, MetadataError.code]
    | some mint =>
    simp only []
    by_cases h2 : mint.is_initialized = false
    · rw [if_pos h2]
      simp [MetadataError.toProgramError, MetadataError.code]
    rw [if_neg h2]
    cases hres : resolve_creation_authority mint mint_authority_info.key with
    | none => simp [MetadataError.toProgramError, MetadataError.code]
    | some matched =>
    simp only []
    by_cases h3 : mint_authority_info.is_signer = false
    · rw [if_pos h3]
      simp [MetadataError.toProgramError, MetadataError.code]
    rw [if_neg h3]
    by_cases h4 : cmp_pubkeys
        (find_metadata_pda_with_program fpa program_id mint_info.key).1
        metadata_info.key = false
    · rw [if_pos h4]
      simp [MetadataError.toProgramError, MetadataError.code]
    rw [if_neg h4]
    by_cases h5 : NAME_MAX_LEN < name.length ∨ SYMBOL_MAX_LEN < symbol.length ∨
        IMAGE_MAX_LEN < image.length ∨ DESCRIPTION_MAX_LEN < description.length
    · rw [if_pos h5]
      simp [MetadataError.toProgramError, MetadataError.code]
    rw [if_neg h5]
    cases hens : ensure_metadata_account payer_info system_program_info
        metadata_info program_id with
    | fail e =>
        intro hc
        simp only [PResult.fail.injEq] at hc
        rcases ensure_metadata_account_fail hens with h | h | h <;>
          simp_all [MetadataError.toProgramError, MetadataError.code]
    | ok a2 =>
    simp only []
    by_cases h6 : head_nonzero a2.data = true
    · rw [if_pos h6]
      simp [MetadataError.toProgramError, MetadataError.code]
    rw [if_neg h6]
    cases hp : TokenMetadata.pack_into_slice
        { is_initialized := true, mint := mint_info.key, name := name,
          symbol := symbol, image := image, description := description,
          update_authority := if immutable then none else some matched }
        a2.data.length with
    | none => simp [MetadataError.toProgramError, MetadataError.code]
    | some buf => simp

/-- Witness for the amended C9 at concrete inputs: the same wrong-owner mint
fails with IncorrectProgramId, and an undecodable mint fails with
InvalidAccountData. -/
theorem c9_invalid_mint_errors_witness :
    process_create_metadata samplePda sampleUnpackMint (samplePk 5)
        [sampleAuthAccount, sampleSysAccount,
         { key := samplePk 4, owner := samplePk 12, is_signer := false,
           data := [] },
         sampleFreshMdAccount, sampleAuthAccount] [65] [66] [67] [68] false =
      (.fail .IncorrectProgramId,
       [sampleAuthAccount, sampleSysAccount,
        { key := samplePk 4, owner := samplePk 12, is_signer := false,
          data := [] },
        sampleFreshMdAccount, sampleAuthAccount]) ∧
    process_create_metadata samplePda sampleNoMint (samplePk 5)
        [sampleAuthAccount, sampleSysAccount, sampleMintAccount,
         sampleFreshMdAccount, sampleAuthAccount] [65] [66] [67] [68] false =
      (.fail .InvalidAccountData,
       [sampleAuthAccount, sampleSysAccount, sampleMintAccount,
        sampleFreshMdAccount, sampleAuthAccount]) :=
  ⟨c9_invalid_mint_errors.1 samplePda sampleUnpackMint (samplePk 5)
      sampleAuthAccount sampleSysAccount
      { key := samplePk 4, owner := samplePk 12, is_signer := false, data := [] }
      sampleFreshMdAccount sampleAuthAccount [] [65] [66] [67] [68] false
      (by decide),
   c9_invalid_mint_errors.2.1 samplePda sampleNoMint (samplePk 5)
      sampleAuthAccount sampleSysAccount sampleMintAccount sampleFreshMdAccount
      sampleAuthAccount [] [65] [66] [67] [68] false (by decide) rfl⟩
